import Mathlib

/-!
# SportCardTracker — verification of the bulk-import / field-mapping pipeline

A shallow embedding of the import pipeline of the SportCardTracker
repository (`src/server/routes.ts`, the eBay importer component, and the
shared schema `src/shared/schema.ts`), together with theorems settling the
specification claims about it.

`src/server/routes.ts` contains two concatenated versions of the route
registration module; we embed both where the claims refer to both
(`importV1…` definitions model the first copy, lines 195–299; the second
copy, lines 690–934, is the primary batch importer and is modelled by
`mapImportRecord` / `importV2…`).  The text-line importer is
`/api/import/text` (second copy, lines 496–610) and the eBay row mapper is
`mapEbayRowToCard` in the client EbayImporter component.

Strings are modelled by Lean `String`; every JavaScript string operation
used by the source (trim, toLowerCase, split, includes, and the regular
expressions) is re-implemented here over `List Char` so that all theorems
can be proved and evaluated without axioms.  Spreadsheet cell values are
strings or numbers; numeric cells are modelled with integer values (no
claim depends on fractional cell contents).  A thrown JavaScript
`TypeError` (calling a string method on a number / `undefined`) is
modelled by `Except.error`.
-/

namespace SportCard

instance {ε α : Type} [DecidableEq ε] [DecidableEq α] : DecidableEq (Except ε α) := fun x y =>
  match x, y with
  | .ok a, .ok b => if h : a = b then isTrue (by rw [h]) else isFalse (by simp [h])
  | .error e, .error f => if h : e = f then isTrue (by rw [h]) else isFalse (by simp [h])
  | .ok _, .error _ => isFalse (by simp)
  | .error _, .ok _ => isFalse (by simp)

/-- JavaScript whitespace characters recognised by `trim`, `\s` (the ASCII
ones; the source data is ASCII). -/
def jsWsChar (c : Char) : Bool :=
  c == ' ' || c == '\t' || c == '\n' || c == '\r' || c == '\x0b' || c == '\x0c'

/-- Word character for the JS regex `\b` boundary: `[A-Za-z0-9_]`. -/
def wordChar (c : Char) : Bool :=
  ('a' ≤ c && c ≤ 'z') || ('A' ≤ c && c ≤ 'Z') || ('0' ≤ c && c ≤ '9') || c == '_'

def isUpperAZ (c : Char) : Bool := 'A' ≤ c && c ≤ 'Z'

def isLowerAZ (c : Char) : Bool := 'a' ≤ c && c ≤ 'z'

def isDigitC (c : Char) : Bool := '0' ≤ c && c ≤ '9'

def isAlphaC (c : Char) : Bool := isUpperAZ c || isLowerAZ c

/-- ASCII lower-casing of one character (JS `toLowerCase` on the data in
this repository). -/
def lowerChar (c : Char) : Char :=
  if isUpperAZ c then Char.ofNat (c.toNat + 32) else c

/-- `List Char` version of JS `String.prototype.trim`. -/
def trimChars (l : List Char) : List Char :=
  ((l.dropWhile jsWsChar).reverse.dropWhile jsWsChar).reverse

/-- JS `trim`. -/
def jsTrim (s : String) : String := String.mk (trimChars s.data)

/-- JS `toLowerCase` (ASCII). -/
def jsToLower (s : String) : String := String.mk (s.data.map lowerChar)

/-- Does `pat` occur as a contiguous sublist of `l` (JS `includes`)? -/
def subOccurs (pat : List Char) : List Char → Bool
  | [] => pat.isEmpty
  | c :: l => pat.isPrefixOf (c :: l) || subOccurs pat l

/-- JS `String.prototype.includes`. -/
def jsIncludes (s pat : String) : Bool :=
  pat.data.isEmpty || subOccurs pat.data s.data

/-- JS `String.prototype.split` with a one-character separator. -/
def splitOnChar (sep : Char) : List Char → List (List Char)
  | [] => [[]]
  | c :: l =>
    let rest := splitOnChar sep l
    if c == sep then [] :: rest
    else match rest with
      | [] => [[c]]
      | p :: ps => (c :: p) :: ps

/-- JS `s.split(sep)` for a single-character separator, as strings. -/
def jsSplit (s : String) (sep : Char) : List String :=
  (splitOnChar sep s.data).map String.mk

/-! ## Regular-expression models

Each JS regular expression used by the import pipeline is modelled by a
dedicated leftmost-match scanner over `List Char`, mirroring JS
`String.prototype.match` semantics (leftmost start position, greedy
quantifiers with backtracking, `\b` word boundaries). -/

/-- `\b` holds before the current position given the previous character. -/
def boundaryB : Option Char → Bool
  | none => true
  | some p => !wordChar p

/-- One alternative of a regex, as a sequence of atoms: a literal
character, a character class, or `\s*` (`gap`). -/
inductive RAtom where
  | lit (c : Char)
  | cls (cs : List Char)
  | gap
deriving DecidableEq

/-- The suffixes of `l` reachable by consuming zero or more leading
JS-whitespace characters (the backtracking choices of `\s*`). -/
def wsSuffixes : List Char → List (List Char)
  | [] => [[]]
  | c :: l => (c :: l) :: (if jsWsChar c then wsSuffixes l else [])

/-- Match a sequence of atoms at the head of `l`, requiring a `\b`
boundary after the match (all patterns used end in a word character). -/
def matchAtoms : List RAtom → List Char → Bool
  | [], [] => true
  | [], c :: _ => !wordChar c
  | .lit _ :: _, [] => false
  | .lit c :: rest, d :: l => c == d && matchAtoms rest l
  | .cls _ :: _, [] => false
  | .cls cs :: rest, d :: l => cs.contains d && matchAtoms rest l
  | .gap :: rest, l => (wsSuffixes l).any fun l' => matchAtoms rest l'

/-- Test a `\b…\b`-delimited alternative anywhere in the input
(leftmost scan with boundary before the start). -/
def scanPat (ats : List RAtom) : Option Char → List Char → Bool
  | _, [] => false
  | prev, c :: l => (boundaryB prev && matchAtoms ats (c :: l)) || scanPat ats (some c) l

/-- Regex `test` of one alternative against a string. -/
def testPattern (ats : List RAtom) (s : String) : Bool :=
  scanPat ats none s.data

/-- Atoms of a literal word. -/
def litAtoms (s : String) : List RAtom := s.data.map RAtom.lit

/-- Generic leftmost scanner: first position where `f` matches. -/
def scanFirst {α : Type} (f : List Char → Option α) : List Char → Option α
  | [] => f []
  | c :: l =>
    match f (c :: l) with
    | some r => some r
    | none => scanFirst f l

/-- `(19|20)\d{2}` at the head of the input, with `\b` after. -/
def yearAt : List Char → Option (List Char)
  | c1 :: c2 :: c3 :: c4 :: rest =>
    if ((c1 == '1' && c2 == '9') || (c1 == '2' && c2 == '0')) && isDigitC c3 && isDigitC c4
        && (match rest with | [] => true | d :: _ => !wordChar d) then
      some [c1, c2, c3, c4]
    else none
  | _ => none

/-- Leftmost match of `\b(19|20)\d{2}\b` (boundary-aware scan). -/
def scanYear : Option Char → List Char → Option (List Char)
  | _, [] => none
  | prev, c :: l =>
    match (if boundaryB prev then yearAt (c :: l) else none) with
    | some r => some r
    | none => scanYear (some c) l

/-- Numeric value of a digit string (JS `parseInt` on a match of digits). -/
def digitsVal (l : List Char) : Int :=
  l.foldl (fun a c => a * 10 + (c.toNat - '0'.toNat : Int)) 0

/-- `line.match(/\b(19|20)\d{2}\b/)`, parsed. -/
def findYearTok (s : String) : Option Int :=
  (scanYear none s.data).map digitsVal

/-- `([A-Z][a-z]+\s+[A-Z][a-z]+)` at the head of the input. -/
def twoCapAt : List Char → Option (List Char)
  | [] => none
  | c :: l =>
    if isUpperAZ c then
      let r1 := l.takeWhile isLowerAZ
      let l1 := l.drop r1.length
      if r1.isEmpty then none
      else
        let ws := l1.takeWhile jsWsChar
        let l2 := l1.drop ws.length
        if ws.isEmpty then none
        else
          match l2 with
          | [] => none
          | d :: l3 =>
            if isUpperAZ d then
              let r2 := l3.takeWhile isLowerAZ
              if r2.isEmpty then none else some (c :: r1 ++ ws ++ d :: r2)
            else none
    else none

/-- `line.match(/([A-Z][a-z]+\s+[A-Z][a-z]+)/)` — the player-name
heuristic of the text-line importer. -/
def findTwoCapWords (s : String) : Option String :=
  (scanFirst twoCapAt s.data).map String.mk

/-- The fixed brand vocabulary, in the source's alternation order. -/
def brandNames : List String := ["Topps", "Panini", "Fleer", "Upper Deck", "Bowman", "Donruss"]

/-- Case-insensitive literal prefix match returning the original-case
matched slice and the rest of the input. -/
def ciPrefix : List Char → List Char → Option (List Char × List Char)
  | [], l => some ([], l)
  | _ :: _, [] => none
  | p :: ps, c :: l =>
    if lowerChar p == lowerChar c then
      match ciPrefix ps l with
      | some (m, r) => some (c :: m, r)
      | none => none
    else none

/-- One brand alternative at the head of the input, with `\b` after. -/
def brandAt (l : List Char) : Option (List Char) :=
  brandNames.findSome? fun b =>
    match ciPrefix b.data l with
    | some (m, rest) =>
      (match rest with
        | [] => some m
        | d :: _ => if wordChar d then none else some m)
    | none => none

/-- Boundary-aware leftmost scan for the brand alternation. -/
def scanBrand : Option Char → List Char → Option (List Char)
  | _, [] => none
  | prev, c :: l =>
    match (if boundaryB prev then brandAt (c :: l) else none) with
    | some m => some m
    | none => scanBrand (some c) l

/-- `line.match(/\b(Topps|Panini|Fleer|Upper Deck|Bowman|Donruss)\b/i)`,
returning the original-case matched text (`brandMatch[0]`). -/
def findBrand (s : String) : Option String :=
  (scanBrand none s.data).map String.mk

/-- `brand\s+([A-Za-z]+)` at the head of the input (capture group 1);
`brand` is the literal text interpolated by the source. -/
def setAt (brand : List Char) (l : List Char) : Option (List Char) :=
  match ciPrefix brand l with
  | some (_, rest) =>
    let ws := rest.takeWhile jsWsChar
    if ws.isEmpty then none
    else
      let letters := (rest.drop ws.length).takeWhile isAlphaC
      if letters.isEmpty then none else some letters
  | none => none

/-- `line.match(new RegExp(brand + "\\s+([A-Za-z]+)", 'i'))[1]`. -/
def findSetAfterBrand (brand s : String) : Option String :=
  (scanFirst (setAt brand.data) s.data).map String.mk

/-- `#\s*(\d+)` at the head of the input (capture group 1). -/
def hashNumAt : List Char → Option (List Char)
  | [] => none
  | c :: l =>
    if c == '#' then
      let ws := l.takeWhile jsWsChar
      let digits := (l.drop ws.length).takeWhile isDigitC
      if digits.isEmpty then none else some digits
    else none

/-- `line.match(/#\s*(\d+)/)[1]` — the card-number extractor. -/
def findHashNumber (s : String) : Option String :=
  (scanFirst hashNumAt s.data).map String.mk

/-- `(\d{4})` at the head of the input. -/
def fourDigAt : List Char → Option (List Char)
  | c1 :: c2 :: c3 :: c4 :: _ =>
    if isDigitC c1 && isDigitC c2 && isDigitC c3 && isDigitC c4 then
      some [c1, c2, c3, c4]
    else none
  | _ => none

/-- `yearStr.match(/(\d{4})/)` — the Season-column year normaliser. -/
def findFourDigits (s : String) : Option Int :=
  (scanFirst fourDigAt s.data).map digitsVal

/-- `[A-Z][a-z]+ ` (one capitalised word plus a literal space) at the head
of the input — one unit of the Card-Name proper-name chain. -/
def unitAt : List Char → Option (List Char × List Char)
  | [] => none
  | c :: l =>
    if isUpperAZ c then
      let run := l.takeWhile isLowerAZ
      if run.isEmpty then none
      else
        match l.drop run.length with
        | ' ' :: rest => some (c :: run ++ [' '], rest)
        | _ => none
    else none

/-- `[A-Z][a-z]+` at the head of the input (the chain's final word). -/
def finalWordAt : List Char → Option (List Char)
  | [] => none
  | c :: l =>
    if isUpperAZ c then
      let run := l.takeWhile isLowerAZ
      if run.isEmpty then none else some (c :: run)
    else none

/-- `(?:[A-Z][a-z]+ )+[A-Z][a-z]+` at the head of the input, with the
greedy-then-backtrack semantics of the `+` quantifier (fuelled to keep the
recursion structural; fuel `l.length` suffices since a unit consumes at
least one character). -/
def chainAt : Nat → List Char → Option (List Char)
  | 0, _ => none
  | fuel + 1, l =>
    match unitAt l with
    | none => none
    | some (u, rest) =>
      match chainAt fuel rest with
      | some tail => some (u ++ tail)
      | none =>
        match finalWordAt rest with
        | some w => some (u ++ w)
        | none => none

/-- Leftmost scan for the chain; the lazy `(?:.*?)` prefix cannot cross a
line terminator, so the scan stops at the first one. -/
def scanChain : List Char → Option (List Char)
  | [] => none
  | c :: l =>
    match chainAt (c :: l).length (c :: l) with
    | some g => some g
    | none => if c == '\n' || c == '\r' then none else scanChain l

/-- `cardName.match(/(?:.*?)((?:[A-Z][a-z]+ )+[A-Z][a-z]+)/)[1]` — the
bulk importer's player-name-from-card-name heuristic. -/
def findProperChain (s : String) : Option String :=
  (scanChain s.data).map String.mk

/-! ## Keyword tables (text-line importer, routes.ts second copy 508–580) -/

/-- The ordered `conditionTerms` table, each regex as a list of
alternatives (patterns lower-cased; the input is lower-cased before
testing, which is equivalent to the source's `/i` flag). -/
def conditionTable : List (String × List (List RAtom)) :=
  [ ("mint", [litAtoms "mint", litAtoms "psa" ++ [.gap] ++ litAtoms "10",
      litAtoms "gem" ++ [.gap] ++ litAtoms "mt"])
  , ("nearMint", [litAtoms "near" ++ [.gap] ++ litAtoms "mint",
      litAtoms "psa" ++ [.gap] ++ litAtoms "9", litAtoms "nm", litAtoms "nm-mt"])
  , ("excellent", [litAtoms "excellent",
      litAtoms "psa" ++ [.gap, .cls ['7', '8']], litAtoms "ex"])
  , ("veryGood", [litAtoms "very" ++ [.gap] ++ litAtoms "good",
      litAtoms "psa" ++ [.gap, .cls ['5', '6']], litAtoms "vg"])
  , ("good", [litAtoms "good", litAtoms "psa" ++ [.gap, .cls ['3', '4']]])
  , ("fair", [litAtoms "fair", litAtoms "psa" ++ [.gap, .cls ['1', '2']]])
  , ("poor", [litAtoms "poor", litAtoms "psa" ++ [.gap] ++ litAtoms "0"]) ]

/-- The text-line condition extractor: first matching table entry wins,
default `"new"`. -/
def conditionOf (line : String) : String :=
  match conditionTable.find? (fun e => e.2.any (fun alt => testPattern alt (jsToLower line))) with
  | some e => e.1
  | none => "new"

/-- The `sportKeywords` table (substring tests, case-insensitive). -/
def sportTable : List (String × List String) :=
  [ ("basketball", ["basketball", "nba", "hoops"])
  , ("baseball", ["baseball", "mlb", "diamond"])
  , ("football", ["football", "nfl", "gridiron"])
  , ("hockey", ["hockey", "nhl", "puck"])
  , ("soccer", ["soccer", "fifa", "mls"]) ]

/-- The text-line sport extractor: first matching keyword set wins,
default `"soccer"`. -/
def sportOf (line : String) : String :=
  match sportTable.find? (fun e => e.2.any (fun k => jsIncludes (jsToLower line) k)) with
  | some e => e.1
  | none => "soccer"

/-! ## Text-line importer (`/api/import/text`, routes.ts 496–610) -/

/-- The card record built from one non-blank line by the text importer. -/
structure TextCard where
  playerName : String
  sport : String
  year : Int
  condition : String
  brand : Option String
  cardSet : Option String
  cardNumber : Option String
  team : Option String
  purchasePrice : String
  currentValue : String
  notes : String
  frontImageUrl : Option String
  backImageUrl : Option String
deriving DecidableEq, Repr

/-- The text importer's per-line mapper (`lines.map(line => …)`).
`nowYear` models `new Date().getFullYear()`. -/
def textLineToCard (nowYear : Int) (line : String) : TextCard :=
  { playerName := (findTwoCapWords line).getD "Unknown Player"
  , sport := sportOf line
  , year := (findYearTok line).getD nowYear
  , condition := conditionOf line
  , brand := findBrand line
  , cardSet :=
      match findBrand line with
      | some b => findSetAfterBrand b line
      | none => none
  , cardNumber := findHashNumber line
  , team := none
  , purchasePrice := "0"
  , currentValue := "0"
  , notes := jsTrim line
  , frontImageUrl := none
  , backImageUrl := none }

/-! ## Raw rows and cell values -/

/-- A parsed spreadsheet cell: a string or a number.  Numeric cells are
modelled with integer values (no claim depends on fractional cell
contents); a missing cell is `Option.none` at the row level. -/
inductive CellValue where
  | str (s : String)
  | num (n : Int)
deriving DecidableEq, Repr

/-- A RawRow: one parsed record, column-name-keyed. -/
abbrev RawRow := List (String × CellValue)

/-- `record[k]` (first binding wins; parsed records have unique keys). -/
def getCell (r : RawRow) (k : String) : Option CellValue :=
  (r.find? (fun p => p.1 == k)).map (fun p => p.2)

/-- JS truthiness of a cell value. -/
def truthyCell : CellValue → Bool
  | .str s => s ≠ ""
  | .num n => n ≠ 0

/-- JS truthiness of a possibly-missing cell. -/
def truthyOpt : Option CellValue → Bool
  | none => false
  | some v => truthyCell v

/-- JS `x || null` on a possibly-missing cell. -/
def orNull (o : Option CellValue) : Option CellValue :=
  if truthyOpt o then o else none

/-- JS `a || b` on possibly-missing cells. -/
def jsOrOpt (a b : Option CellValue) : Option CellValue :=
  if truthyOpt a then a else b

/-- JS `x || null` on an optional string. -/
def orNullStr : Option String → Option String
  | some s => if s ≠ "" then some s else none
  | none => none

/-- JS `s || d` for strings. -/
def jsOrStr (s d : String) : String := if s = "" then d else s

/-- JS `toString()` on a cell value (integer numbers print in decimal). -/
def cellToString : CellValue → String
  | .str s => s
  | .num n => toString n

/-- JS `parseInt` on a string: leading whitespace, optional sign, leading
decimal digits; `none` models `NaN`. -/
def jsParseInt (s : String) : Option Int :=
  let l := s.data.dropWhile jsWsChar
  let p : Bool × List Char :=
    match l with
    | '-' :: r => (true, r)
    | '+' :: r => (false, r)
    | _ => (false, l)
  let digits := p.2.takeWhile isDigitC
  if digits.isEmpty then none
  else some ((if p.1 then -1 else 1) * digitsVal digits)

/-- JS `parseFloat` on a string (decimal point supported; exponent
notation does not occur in this pipeline's data). -/
def jsParseFloat (s : String) : Option Rat :=
  let l := s.data.dropWhile jsWsChar
  let p : Rat × List Char :=
    match l with
    | '-' :: r => (-1, r)
    | '+' :: r => (1, r)
    | _ => (1, l)
  let ip := p.2.takeWhile isDigitC
  let rest := p.2.drop ip.length
  let fp : List Char :=
    match rest with
    | '.' :: r => r.takeWhile isDigitC
    | _ => []
  if ip.isEmpty && fp.isEmpty then none
  else some (p.1 * ((digitsVal ip : Rat) + (digitsVal fp : Rat) / (10 ^ fp.length)))

/-- JS `parseInt` applied to a possibly-missing cell (`parseInt(undefined)`
is `NaN`; a numeric cell round-trips through its decimal string). -/
def parseIntCell : Option CellValue → Option Int
  | some (.num n) => some n
  | some (.str s) => jsParseInt s
  | none => none

/-- JS `parseFloat` applied to a possibly-missing cell. -/
def parseFloatCell : Option CellValue → Option Rat
  | some (.num n) => some (n : Rat)
  | some (.str s) => jsParseFloat s
  | none => none

/-- The schema's sport enumeration (`sportEnum`, shared/schema.ts). -/
def sportEnumList : List String :=
  ["basketball", "baseball", "football", "hockey", "soccer", "other"]

/-- The schema's condition enumeration (`conditionEnum`, shared/schema.ts). -/
def conditionEnumList : List String :=
  ["mint", "nearMint", "excellent", "veryGood", "good", "fair", "poor", "new"]

/-! ## Bulk importer row mapper (`/api/import`, routes.ts second copy 761–886)

A thrown `TypeError` (a string method applied to a numeric cell) is
modelled by `Except.error ()`. -/

/-- The normalized candidate produced by the bulk row mapper
(`mappedRecord`), fields in source assignment order. -/
structure MappedRecord where
  playerName : String
  sport : String
  team : Option CellValue
  brand : Option CellValue
  cardSet : Option CellValue
  cardNumber : Option CellValue
  condition : String
  notes : Option CellValue
  frontImageUrl : Option String
  backImageUrl : Option String
  year : Int
  purchasePrice : Int
  currentValue : Int
deriving DecidableEq, Repr

/-- The `Card Name` fallback branch of the player-name resolution
(routes.ts 770–786). -/
def cardNameBranch (r : RawRow) : Except Unit String :=
  match getCell r "Card Name" with
  | some (.num n) => if n ≠ 0 then .error () else .ok "Unknown Player"
  | some (.str s) =>
    if s ≠ "" ∧ jsTrim s ≠ "" then
      let cardName := jsTrim s
      .ok (match findProperChain cardName with
        | some g => if g ≠ "" then jsTrim g else cardName
        | none => cardName)
    else .ok "Unknown Player"
  | none => .ok "Unknown Player"

/-- Player-name resolution (routes.ts 767–786): `Player Name` trimmed if
non-blank, else the `Card Name` heuristic, else `"Unknown Player"`.
Calling `.trim()` on a truthy numeric cell throws. -/
def playerNameOf (r : RawRow) : Except Unit String :=
  match getCell r "Player Name" with
  | some (.num n) => if n ≠ 0 then .error () else cardNameBranch r
  | some (.str s) => if s ≠ "" ∧ jsTrim s ≠ "" then .ok (jsTrim s) else cardNameBranch r
  | none => cardNameBranch r

/-- `record["Sport"] ? record["Sport"].toLowerCase() : "soccer"`. -/
def sportFieldOf (r : RawRow) : Except Unit String :=
  match getCell r "Sport" with
  | some (.num n) => if n ≠ 0 then .error () else .ok "soccer"
  | some (.str s) => .ok (if s ≠ "" then jsToLower s else "soccer")
  | none => .ok "soccer"

/-- `record["Condition"] ? record["Condition"].toLowerCase() : "new"`. -/
def conditionFieldOf (r : RawRow) : Except Unit String :=
  match getCell r "Condition" with
  | some (.num n) => if n ≠ 0 then .error () else .ok "new"
  | some (.str s) => .ok (if s ≠ "" then jsToLower s else "new")
  | none => .ok "new"

/-- Pipe-splitting of the `IMAGE URL` cell (routes.ts 798–832): split on
`|`, trim, drop empties; first URL → front, second → back. -/
def imageBlock (r : RawRow) : Option String × Option String :=
  match getCell r "IMAGE URL" with
  | some v =>
    if truthyCell v then
      let s := cellToString v
      let urls :=
        if jsIncludes s "|" then ((jsSplit s '|').map jsTrim).filter (fun u => u ≠ "")
        else [jsTrim s]
      ( match urls with
        | u :: _ => if u ≠ "" then some u else none
        | [] => none
      , match urls with
        | _ :: u :: _ => if u ≠ "" then some u else none
        | _ => none )
    else (none, none)
  | none => (none, none)

/-- The additional image columns probed by the loop at routes.ts 835. -/
def possibleImageFields : List String :=
  ["Image URL", "IMAGE URL", "Front Image URL", "Back Image URL", "Front Image", "Back Image"]

/-- One iteration of the additional-image-fields loop (routes.ts 836–851):
only string cells with a non-blank trim that contain `http://` or
`https://` are considered; a field whose name contains `front` — or any
qualifying field while `frontImageUrl` is unset — overwrites the front
URL; otherwise a `back` field fills an unset back URL. -/
def imageLoopStep (r : RawRow) (fb : Option String × Option String) (fieldName : String) :
    Option String × Option String :=
  match getCell r fieldName with
  | some (.str s) =>
    if s ≠ "" ∧ jsTrim s ≠ "" then
      let url := jsTrim s
      if jsIncludes url "http://" || jsIncludes url "https://" then
        if jsIncludes (jsToLower fieldName) "front" || fb.1 = none then (some url, fb.2)
        else if jsIncludes (jsToLower fieldName) "back" ∧ fb.2 = none then (fb.1, some url)
        else fb
      else fb
    else fb
  | _ => fb

/-- Full image-URL assignment of the bulk row mapper. -/
def imagesOf (r : RawRow) : Option String × Option String :=
  possibleImageFields.foldl (imageLoopStep r) (imageBlock r)

/-- Season/year normalisation (routes.ts 854–869): first 4-digit group of
the cell's string form, else the current year. -/
def yearFieldOf (nowYear : Int) (r : RawRow) : Int :=
  match getCell r "Season" with
  | some v =>
    if truthyCell v then (findFourDigits (cellToString v)).getD nowYear
    else nowYear
  | none => nowYear

/-- The bulk importer's record mapper (routes.ts 761–886).  `nowYear`
models `new Date().getFullYear()`.  The trailing re-defaults of
routes.ts 871–877 are included (they fire only on an empty string). -/
def mapImportRecord (nowYear : Int) (r : RawRow) : Except Unit MappedRecord := do
  let pn ← playerNameOf r
  let sp ← sportFieldOf r
  let cond ← conditionFieldOf r
  let fb := imagesOf r
  pure
    { playerName := pn
    , sport := if sp = "" then "soccer" else sp
    , team := orNull (getCell r "Team")
    , brand := orNull (getCell r "Brand")
    , cardSet := orNull (getCell r "Card Set")
    , cardNumber := orNull (getCell r "Card Number")
    , condition := if cond = "" then "new" else cond
    , notes := jsOrOpt (getCell r "Features") (orNull (getCell r "Card Name"))
    , frontImageUrl := fb.1
    , backImageUrl := fb.2
    , year := yearFieldOf nowYear r
    , purchasePrice := 0
    , currentValue := 0 }

/-! ## Batch importer (`/api/import`, routes.ts second copy 690–934) -/

/-- The pre-filter of routes.ts 751–756: keep rows with a truthy
name-bearing cell, or with both an `IMAGE URL` and a `Card Number`
column present. -/
def survivesFilter (r : RawRow) : Bool :=
  truthyOpt (getCell r "Player Name") || truthyOpt (getCell r "Card Name") ||
    ((getCell r "IMAGE URL").isSome && (getCell r "Card Number").isSome)

/-- The permissive record persisted by the batch importer
(`validRecord`, routes.ts 893–907). -/
structure ValidRecord where
  playerName : String
  sport : String
  year : Int
  condition : String
  team : Option CellValue
  brand : Option CellValue
  cardSet : Option CellValue
  cardNumber : Option CellValue
  purchasePrice : String
  currentValue : String
  notes : Option CellValue
  frontImageUrl : Option String
  backImageUrl : Option String
deriving DecidableEq, Repr

/-- `validRecord` construction from a mapped record (routes.ts 893–907). -/
def toValidRecord (nowYear : Int) (m : MappedRecord) : ValidRecord :=
  { playerName := jsOrStr m.playerName "Unknown Player"
  , sport := jsOrStr m.sport "soccer"
  , year := if m.year ≠ 0 then m.year else nowYear
  , condition := jsOrStr m.condition "new"
  , team := orNull m.team
  , brand := orNull m.brand
  , cardSet := orNull m.cardSet
  , cardNumber := orNull m.cardNumber
  , purchasePrice := "0"
  , currentValue := "0"
  , notes := orNull m.notes
  , frontImageUrl := orNullStr m.frontImageUrl
  , backImageUrl := orNullStr m.backImageUrl }

/-- One per-row outcome of the batch importer (routes.ts 889–920). -/
inductive RowResult where
  | success (data : ValidRecord)
  | failure (error : String) (data : MappedRecord)
deriving DecidableEq, Repr

def RowResult.isSuccess : RowResult → Bool
  | .success _ => true
  | .failure _ _ => false

/-- Modelled from the spec: `storage.createCard` (the in-memory
persistence collaborator, whose module is not part of the sources) "may
fail"; a batch's persistence behaviour is abstracted by a failure oracle
`fails : Nat → Option String` giving, per row index, `none` on success or
`some e` when the collaborator rejects with error text `e`. -/
def rowOutcome (nowYear : Int) (fails : Nat → Option String) (i : Nat) (m : MappedRecord) :
    RowResult :=
  match fails i with
  | none => .success (toValidRecord nowYear m)
  | some e =>
    .failure ("Error processing record: " ++ jsOrStr m.playerName "Unknown" ++ " - " ++ e) m

/-- `List.map` with the element index (result order is input order, as
guaranteed by `Promise.all`). -/
def mapWithIndex {α β : Type} (f : Nat → α → β) : Nat → List α → List β
  | _, [] => []
  | i, a :: l => f i a :: mapWithIndex f (i + 1) l

/-- Sequence a list of fallible computations; the synchronous
`records.map` propagates the first thrown error. -/
def seqExcept {α : Type} : List (Except Unit α) → Except Unit (List α)
  | [] => .ok []
  | .error e :: _ => .error e
  | .ok a :: rest =>
    match seqExcept rest with
    | .ok as => .ok (a :: as)
    | .error e => .error e

/-- The batch import endpoint's response. -/
inductive ImportResponse where
  | serverError (message : String)
  | okResponse (message : String) (results : List RowResult)
deriving DecidableEq, Repr

/-- The default column mapping substituted by the second copy when the
`columnMap` body field fails to parse (routes.ts 704–718). -/
def defaultColumnMap : List (String × String) :=
  [ ("playerName", "Player Name"), ("sport", "Sport"), ("year", "Season")
  , ("brand", "Brand"), ("cardSet", "Card Set"), ("cardNumber", "Card Number")
  , ("condition", "Condition"), ("team", "Team"), ("notes", "Features")
  , ("frontImageUrl", "IMAGE URL"), ("backImageUrl", "IMAGE URL") ]

/-- The `/api/import` handler of the second copy (routes.ts 690–934),
from the `columnMap` parse on: `columnMapParse` is the outcome of
`JSON.parse(columnMap)` (`none` = parse failure), `records` the rows
produced by the CSV/Excel parser, `fails` the persistence oracle.
The parsed column mapping is bound but never consulted by this copy's
row mapper. -/
def importV2 (nowYear : Int) (columnMapParse : Option (List (String × String)))
    (fails : Nat → Option String) (records : List RawRow) : ImportResponse :=
  let _mappedColumns := columnMapParse.getD defaultColumnMap
  let survivors := records.filter survivesFilter
  match seqExcept (survivors.map (mapImportRecord nowYear)) with
  | .error _ => .serverError "Failed to import cards"
  | .ok cards =>
    let results := mapWithIndex (rowOutcome nowYear fails) 0 cards
    let successful := (results.filter RowResult.isSuccess).length
    let failed := (results.filter (fun rr => !rr.isSuccess)).length
    .okResponse
      ("Import completed: " ++ toString successful ++ " cards imported, " ++
        toString failed ++ " failed")
      results

/-! ## Text import endpoint (`/api/import/text`, routes.ts 496–610) -/

/-- One per-line outcome of the text importer (routes.ts 583–597). -/
inductive TextRowResult where
  | success (data : TextCard)
  | failure (error : String) (data : TextCard)
deriving DecidableEq, Repr

def TextRowResult.isSuccess : TextRowResult → Bool
  | .success _ => true
  | .failure _ _ => false

/-- The text import endpoint's response. -/
inductive TextImportResponse where
  | badRequest (message : String)
  | okResponse (message : String) (imported : Nat) (results : List TextRowResult)
deriving DecidableEq, Repr

/-- The `/api/import/text` handler (routes.ts 496–610): `body` is the
request body's `text` field (`none` when absent or of a non-coercible
type), `fails` the persistence oracle (as for the batch importer). -/
def textImport (nowYear : Int) (fails : Nat → Option String) (body : Option CellValue) :
    TextImportResponse :=
  match body with
  | none => .badRequest "No text data provided"
  | some (.num _) => .badRequest "No text data provided"
  | some (.str s) =>
    if s = "" then .badRequest "No text data provided"
    else
      let lines := (jsSplit s '\n').filter (fun l => jsTrim l ≠ "")
      let cards := lines.map (textLineToCard nowYear)
      let results := mapWithIndex
        (fun i c =>
          match fails i with
          | none => TextRowResult.success c
          | some e => TextRowResult.failure ("Failed to create card: " ++ e) c)
        0 cards
      let successful := (results.filter TextRowResult.isSuccess).length
      .okResponse
        ("Successfully imported " ++ toString successful ++ " of " ++
          toString cards.length ++ " cards")
        successful results

/-! ## eBay importer (client EbayImporter component)

`mapEbayRowToCard` and its helpers.  An eBay export row is a `RawRow`
keyed by the eBay column vocabulary. -/

/-- `extractPlayerFromTitle`: the first two space-separated tokens. -/
def extractPlayerFromTitle (title : String) : String :=
  String.intercalate " " ((jsSplit title ' ').take 2)

/-- `extractCardNumberFromTitle`: `/#(\d+)/` (digits directly after `#`). -/
def hashDigitsAt : List Char → Option (List Char)
  | [] => none
  | c :: l =>
    if c == '#' then
      let digits := l.takeWhile isDigitC
      if digits.isEmpty then none else some digits
    else none

def extractCardNumberFromTitle (title : String) : Option String :=
  (scanFirst hashDigitsAt title.data).map String.mk

/-- `/\$(\d+(\.\d{2})?)/` at the head of the input, parsed. -/
def priceAt : List Char → Option Rat
  | [] => none
  | c :: l =>
    if c == '$' then
      let digits := l.takeWhile isDigitC
      if digits.isEmpty then none
      else
        match l.drop digits.length with
        | '.' :: d1 :: d2 :: _ =>
          if isDigitC d1 && isDigitC d2 then
            some ((digitsVal digits : Rat) + (digitsVal [d1, d2] : Rat) / 100)
          else some ((digitsVal digits : Rat))
        | _ => some ((digitsVal digits : Rat))
    else none

/-- `extractPriceFromTitle`. -/
def extractPriceFromTitle (title : String) : Option Rat :=
  scanFirst priceAt title.data

/-- `mapEbayConditionToSchema(conditionId, conditionDesc)`: the ID /
description table.  `conditionDesc.includes(…)` throws when the
description argument is not a string (both args falsy is checked first). -/
def mapEbayConditionToSchema (conditionId conditionDesc : Option CellValue) :
    Except Unit String :=
  if !truthyOpt conditionId && !truthyOpt conditionDesc then .ok "unknown"
  else
    match conditionDesc with
    | some (.str d) =>
      .ok
        (if jsIncludes d "Mint" || conditionId = some (.str "10") then "mint"
        else if jsIncludes d "Near Mint" || conditionId = some (.str "9") then "nearMint"
        else if jsIncludes d "Excellent" || conditionId = some (.str "8") then "excellent"
        else if jsIncludes d "Very Good" || conditionId = some (.str "7") then "veryGood"
        else if jsIncludes d "Good" || conditionId = some (.str "6") then "good"
        else if jsIncludes d "Fair" || conditionId = some (.str "5") then "fair"
        else if jsIncludes d "Poor" || conditionId = some (.str "4") then "poor"
        else "unknown")
    | _ => .error ()

/-- The card produced by `mapEbayRowToCard`. -/
structure EbayCard where
  playerName : CellValue
  sport : String
  year : Int
  brand : Option CellValue
  cardSet : Option CellValue
  cardNumber : Option CellValue
  condition : String
  currentValue : Option Rat
  purchasePrice : Option Rat
  notes : String
  team : Option CellValue
  frontImageUrl : Option CellValue
  backImageUrl : Option CellValue
  createdAt : String
deriving DecidableEq, Repr

/-- The `Title` cell as a string; any string method on a missing or
numeric `Title` throws (the price extractor always dereferences it). -/
def ebayTitleOf (row : RawRow) : Except Unit String :=
  match getCell row "Title" with
  | some (.str t) => Except.ok t
  | _ => Except.error ()

/-- `row["C:Player/Athlete"] || row["C:Card Name"] || extractPlayerFromTitle(row.Title)`. -/
def ebayPlayerOf (row : RawRow) (title : String) : CellValue :=
  match jsOrOpt (getCell row "C:Player/Athlete") (orNull (getCell row "C:Card Name")) with
  | some v => v
  | none => .str (extractPlayerFromTitle title)

/-- `(row["C:Sport"] || "").toLowerCase()` (throws on a truthy numeric cell). -/
def ebaySportOf (row : RawRow) : Except Unit String :=
  match jsOrOpt (getCell row "C:Sport") (some (.str "")) with
  | some (.str s) => Except.ok (jsToLower s)
  | _ => Except.error ()

/-- `parseInt(row["C:Year Manufactured"]) || extractYearFromTitle(row.Title)`. -/
def ebayYearOf (nowYear : Int) (row : RawRow) (title : String) : Int :=
  match parseIntCell (getCell row "C:Year Manufactured") with
  | some n => if n ≠ 0 then n else (findYearTok title).getD nowYear
  | none => (findYearTok title).getD nowYear

/-- `row["C:Card Number"] || extractCardNumberFromTitle(row.Title)`. -/
def ebayCardNumberOf (row : RawRow) (title : String) : Option CellValue :=
  match orNull (getCell row "C:Card Number") with
  | some v => some v
  | none => (extractCardNumberFromTitle title).map .str

/-- `extractPriceFromTitle(row.Title) || null`. -/
def ebayPriceOf (title : String) : Option Rat :=
  match extractPriceFromTitle title with
  | some p => if p ≠ 0 then some p else none
  | none => none

/-- `mapEbayRowToCard(row)`.  `nowYear`/`nowIso` model `new Date()`.
String methods on numeric or missing cells throw. -/
def mapEbayRowToCard (nowYear : Int) (nowIso : String) (row : RawRow) :
    Except Unit EbayCard := do
  let title ← ebayTitleOf row
  let sp ← ebaySportOf row
  let cond ←
    mapEbayConditionToSchema (getCell row "ConditionID")
      (jsOrOpt (getCell row "C:ConditionDescription") (getCell row "ConditionDescription"))
  pure
    { playerName := ebayPlayerOf row title
    , sport := sp
    , year := ebayYearOf nowYear row title
    , brand := orNull (getCell row "C:Manufacturer")
    , cardSet := orNull (getCell row "C:Set")
    , cardNumber := ebayCardNumberOf row title
    , condition := cond
    , currentValue := ebayPriceOf title
    , purchasePrice := none
    , notes := "Imported from eBay: " ++ title
    , team := orNull (getCell row "C:Team")
    , frontImageUrl := orNull (getCell row "PicURL")
    , backImageUrl := none
    , createdAt := nowIso }

/-! ## First copy of `/api/import` (routes.ts 195–299)

The first concatenated version of the handler: an unparseable
`columnMap` is a 400 (routes.ts 205–210), and the row mapper reads each
field from the caller-supplied mapping (routes.ts 236–259).  Downstream
validation/persistence of this copy is not needed by any claim and is
not modelled. -/

/-- A value held by the first copy's `mappedRecord`: a cell, or the
result of the numeric conversions (`none` = `NaN`). -/
inductive V1Val where
  | cv (v : CellValue)
  | pint (v : Option Int)
  | pfloat (v : Option Rat)
deriving DecidableEq, Repr

/-- JS truthiness of a `mappedRecord` value (`NaN` is falsy). -/
def truthyV1 : V1Val → Bool
  | .cv v => truthyCell v
  | .pint (some n) => n ≠ 0
  | .pint none => false
  | .pfloat (some q) => q ≠ 0
  | .pfloat none => false

/-- Truncation toward zero (JS number-to-int of `parseInt` on a number). -/
def ratTrunc (q : Rat) : Int := if q ≥ 0 then q.floor else q.ceil

/-- `parseInt` of a `mappedRecord` value. -/
def parseIntV1 : V1Val → Option Int
  | .cv v => parseIntCell (some v)
  | .pint x => x
  | .pfloat x => x.map ratTrunc

/-- `parseFloat` of a `mappedRecord` value. -/
def parseFloatV1 : V1Val → Option Rat
  | .cv v => parseFloatCell (some v)
  | .pint x => x.map (fun n => (n : Rat))
  | .pfloat x => x

/-- JS object property assignment on an association list. -/
def setKey (m : List (String × V1Val)) (k : String) (v : V1Val) : List (String × V1Val) :=
  match m with
  | [] => [(k, v)]
  | (k', v') :: rest => if k' = k then (k, v) :: rest else (k', v') :: setKey rest k v

/-- Property lookup on the first copy's `mappedRecord`. -/
def lookupV1 (m : List (String × V1Val)) (k : String) : Option V1Val :=
  (m.find? (fun p => p.1 == k)).map (fun p => p.2)

/-- `if (mappedRecord[k]) mappedRecord[k] = conv(mappedRecord[k])`. -/
def convertKey (m : List (String × V1Val)) (k : String) (conv : V1Val → V1Val) :
    List (String × V1Val) :=
  match lookupV1 m k with
  | some v => if truthyV1 v then setKey m k (conv v) else m
  | none => m

/-- One iteration of the first copy's mapping loop (routes.ts 239–243):
`if (fileField && fileField !== "none" && record[fileField] !== undefined)
mappedRecord[cardField] = record[fileField]`. -/
def v1Step (r : RawRow) (acc : List (String × V1Val)) (p : String × String) :
    List (String × V1Val) :=
  if p.2 ≠ "" ∧ p.2 ≠ "none" ∧ (getCell r p.2).isSome then
    setKey acc p.1 (.cv ((getCell r p.2).getD (.str "")))
  else acc

/-- The first copy's column-copy loop over `Object.entries(mappedColumns)`. -/
def mapV1Stage1 (mapping : List (String × String)) (r : RawRow) : List (String × V1Val) :=
  mapping.foldl (v1Step r) []

/-- The first copy's row mapper (routes.ts 236–259): copy each mapped
column's cell under the canonical field name (skipping empty/`"none"`
source columns and absent cells), then numerically coerce
`year`/`purchasePrice`/`currentValue` when truthy. -/
def mapRecordV1 (mapping : List (String × String)) (r : RawRow) : List (String × V1Val) :=
  convertKey
    (convertKey
      (convertKey (mapV1Stage1 mapping r) "year" (fun v => .pint (parseIntV1 v)))
      "purchasePrice" (fun v => .pfloat (parseFloatV1 v)))
    "currentValue" (fun v => .pfloat (parseFloatV1 v))

/-- The first copy's handler outcome up to row mapping. -/
inductive V1Dispatch where
  | badRequest (message : String)
  | proceed (cardRecords : List (List (String × V1Val)))
deriving DecidableEq, Repr

/-- The first copy of `/api/import` from the `columnMap` parse through
row mapping (routes.ts 205–259): a parse failure is answered with a 400
before any row is touched. -/
def importV1Dispatch (columnMapParse : Option (List (String × String)))
    (records : List RawRow) : V1Dispatch :=
  match columnMapParse with
  | none => .badRequest "Invalid column mapping"
  | some m => .proceed (records.map (mapRecordV1 m))

/-! ## Auxiliary predicates used by the theorem statements -/

/-- Every cell of the row is a string (rules out the `TypeError`s thrown
by string methods on numeric cells). -/
def rowAllStr (r : RawRow) : Bool :=
  r.all (fun p => match p.2 with | .str _ => true | .num _ => false)

/-- The `Sport` cell, when present and non-blank, lower-cases into the
sport enumeration. -/
def sportCellEnumOk (r : RawRow) : Bool :=
  match getCell r "Sport" with
  | some (.str s) => s == "" || sportEnumList.contains (jsToLower s)
  | _ => true

/-- The `Condition` cell, when present and non-blank, lower-cases into
the condition enumeration. -/
def conditionCellEnumOk (r : RawRow) : Bool :=
  match getCell r "Condition" with
  | some (.str s) => s == "" || conditionEnumList.contains (jsToLower s)
  | _ => true

/-- Is the optional cell a string cell? -/
def isStrCell : Option CellValue → Bool
  | some (.str _) => true
  | _ => false

/-- Is the text-import response a 400? -/
def isBadRequestT : TextImportResponse → Bool
  | .badRequest _ => true
  | _ => false

/-- The value the first copy's mapper stores for field `f` fed by cell
`v`: the cell itself, numerically coerced for the three numeric fields
when truthy. -/
def v1FinalVal (f : String) (v : CellValue) : V1Val :=
  if f = "year" then (if truthyCell v then .pint (parseIntCell (some v)) else .cv v)
  else if f = "purchasePrice" ∨ f = "currentValue" then
    (if truthyCell v then .pfloat (parseFloatCell (some v)) else .cv v)
  else .cv v

/-! ## General lemmas -/

theorem length_filter_add_length_filter_not {α : Type} (p : α → Bool) (l : List α) :
    (l.filter p).length + (l.filter (fun x => !p x)).length = l.length := by
  induction l with
  | nil => simp
  | cons a l ih =>
    by_cases h : p a <;> simp [List.filter_cons, h] <;> omega

theorem mapWithIndex_length {α β : Type} (f : Nat → α → β) :
    ∀ (n : Nat) (l : List α), (mapWithIndex f n l).length = l.length := by
  intro n l
  induction l generalizing n with
  | nil => rfl
  | cons a l ih => simp [mapWithIndex, ih]

theorem mapWithIndex_nil {α β : Type} (f : Nat → α → β) (n : Nat) :
    mapWithIndex f n ([] : List α) = [] := rfl

theorem mapWithIndex_getElem? {α β : Type} (f : Nat → α → β) :
    ∀ (l : List α) (n j : Nat), (mapWithIndex f n l)[j]? = l[j]?.map (f (n + j)) := by
  intro l
  induction l with
  | nil => intro n j; simp [mapWithIndex]
  | cons a l ih =>
    intro n j
    cases j with
    | zero => simp [mapWithIndex]
    | succ j =>
      have h : n + (j + 1) = (n + 1) + j := by omega
      simp only [mapWithIndex, List.getElem?_cons_succ, ih (n + 1) j, h]

theorem seqExcept_ok_length {α : Type} :
    ∀ {l : List (Except Unit α)} {as : List α}, seqExcept l = .ok as → as.length = l.length := by
  intro l
  induction l with
  | nil => intro as h; simp [seqExcept] at h; simp [← h]
  | cons x l ih =>
    intro as h
    cases x with
    | error e => simp [seqExcept] at h
    | ok a =>
      simp only [seqExcept] at h
      cases hrec : seqExcept l with
      | error e => rw [hrec] at h; exact absurd h (by simp)
      | ok as' =>
        rw [hrec] at h
        cases h
        simp [ih hrec]

theorem dropWhile_ne_nil_of_mem {α : Type} (p : α → Bool) :
    ∀ (l : List α) (x : α), x ∈ l → p x = false → l.dropWhile p ≠ [] := by
  intro l
  induction l with
  | nil => intro x hx; simp at hx
  | cons a l ih =>
    intro x hx hpx
    by_cases hpa : p a
    · rw [List.dropWhile_cons_of_pos hpa]
      rcases List.mem_cons.mp hx with rfl | hx'
      · rw [hpa] at hpx; exact absurd hpx (by simp)
      · exact ih x hx' hpx
    · rw [List.dropWhile_cons_of_neg hpa]; simp

theorem exists_mem_dropWhile {α : Type} (p : α → Bool) :
    ∀ (l : List α) (x : α), x ∈ l → p x = false →
      ∃ y ∈ l.dropWhile p, p y = false := by
  intro l
  induction l with
  | nil => intro x hx; simp at hx
  | cons a l ih =>
    intro x hx hpx
    by_cases hpa : p a
    · rw [List.dropWhile_cons_of_pos hpa]
      rcases List.mem_cons.mp hx with rfl | hx'
      · rw [hpa] at hpx; exact absurd hpx (by simp)
      · exact ih x hx' hpx
    · exact ⟨a, by rw [List.dropWhile_cons_of_neg hpa]; simp, by simpa using hpa⟩

theorem trimChars_ne_nil {l : List Char} {x : Char} (hx : x ∈ l) (hxw : jsWsChar x = false) :
    trimChars l ≠ [] := by
  unfold trimChars
  obtain ⟨y, hy, hyw⟩ := exists_mem_dropWhile jsWsChar l x hx hxw
  have hy' : y ∈ (l.dropWhile jsWsChar).reverse := List.mem_reverse.mpr hy
  have := dropWhile_ne_nil_of_mem jsWsChar _ y hy' hyw
  simpa using this

theorem trimChars_eq_nil_of_all_ws {l : List Char} (h : ∀ x ∈ l, jsWsChar x = true) :
    trimChars l = [] := by
  unfold trimChars
  have h1 : l.dropWhile jsWsChar = [] := List.dropWhile_eq_nil_iff.mpr h
  rw [h1]
  rfl

theorem string_ne_empty_iff (s : String) : s ≠ "" ↔ s.data ≠ [] := by
  constructor
  · intro h hd
    apply h
    cases s with | mk d => cases hd; rfl
  · intro h he
    apply h
    exact congrArg String.data he

theorem string_mk_data (l : List Char) : (String.mk l).data = l := rfl

theorem upper_not_ws {c : Char} (h : isUpperAZ c = true) : jsWsChar c = false := by
  simp only [isUpperAZ, Bool.and_eq_true, decide_eq_true_eq] at h
  simp only [jsWsChar, Bool.or_eq_false_iff, beq_eq_false_iff_ne]
  refine ⟨⟨⟨⟨⟨?_, ?_⟩, ?_⟩, ?_⟩, ?_⟩, ?_⟩ <;> rintro rfl <;> revert h <;> decide

theorem unitAt_shape {l u rest : List Char} (h : unitAt l = some (u, rest)) :
    ∃ c run, u = c :: (run ++ [' ']) ∧ isUpperAZ c = true := by
  cases l with
  | nil => simp [unitAt] at h
  | cons c l' =>
    have hred : unitAt (c :: l') =
        (if isUpperAZ c then
          (if (l'.takeWhile isLowerAZ).isEmpty then none
           else
            match l'.drop (l'.takeWhile isLowerAZ).length with
            | ' ' :: rest => some (c :: (l'.takeWhile isLowerAZ ++ [' ']), rest)
            | _ => none)
         else none) := rfl
    rw [hred] at h
    by_cases hc : isUpperAZ c
    · rw [if_pos hc] at h
      by_cases he : (l'.takeWhile isLowerAZ).isEmpty
      · rw [if_pos he] at h; simp at h
      · rw [if_neg he] at h
        split at h
        · cases h
          exact ⟨c, l'.takeWhile isLowerAZ, rfl, hc⟩
        · simp at h
    · rw [if_neg hc] at h; simp at h

theorem chainAt_head : ∀ {fuel : Nat} {l g : List Char}, chainAt fuel l = some g →
    ∃ c t, g = c :: t ∧ isUpperAZ c = true := by
  intro fuel
  induction fuel with
  | zero => intro l g h; simp [chainAt] at h
  | succ fuel ih =>
    intro l g h
    unfold chainAt at h
    split at h
    · simp at h
    · rename_i u rest hunit
      obtain ⟨c, run, hu, hc⟩ := unitAt_shape hunit
      split at h
      · cases h; exact ⟨c, _, by rw [hu]; rfl, hc⟩
      · split at h
        · cases h; exact ⟨c, _, by rw [hu]; rfl, hc⟩
        · simp at h

theorem scanChain_chainAt : ∀ {l g : List Char}, scanChain l = some g →
    ∃ fuel l', chainAt fuel l' = some g := by
  intro l
  induction l with
  | nil => intro g h; simp [scanChain] at h
  | cons c l' ih =>
    intro g h
    unfold scanChain at h
    split at h
    · cases h; exact ⟨_, _, by assumption⟩
    · split at h
      · simp at h
      · exact ih h

theorem findProperChain_shape {s : String} {g : String}
    (h : findProperChain s = some g) :
    ∃ c t, g.data = c :: t ∧ isUpperAZ c = true := by
  simp only [findProperChain, Option.map_eq_some'] at h
  obtain ⟨l, hl, rfl⟩ := h
  obtain ⟨fuel, l', hc⟩ := scanChain_chainAt hl
  obtain ⟨c, t, rfl, hup⟩ := chainAt_head hc
  exact ⟨c, t, rfl, hup⟩

theorem findProperChain_ne_empty {s g : String} (h : findProperChain s = some g) :
    g ≠ "" := by
  obtain ⟨c, t, hg, _⟩ := findProperChain_shape h
  rw [string_ne_empty_iff, hg]
  simp

theorem findProperChain_trim_ne {s g : String} (h : findProperChain s = some g) :
    jsTrim g ≠ "" := by
  obtain ⟨c, t, hg, hup⟩ := findProperChain_shape h
  rw [string_ne_empty_iff]
  show trimChars g.data ≠ []
  exact trimChars_ne_nil (by rw [hg]; simp) (upper_not_ws hup)

/-- Under `rowAllStr`, every cell lookup is absent or a string. -/
theorem rowAllStr_getCell {r : RawRow} (h : rowAllStr r = true) (k : String) :
    getCell r k = none ∨ ∃ s, getCell r k = some (.str s) := by
  unfold getCell
  cases hf : r.find? (fun p => p.1 == k) with
  | none => left; rfl
  | some p =>
    right
    have hp := List.mem_of_find?_eq_some hf
    have := (List.all_eq_true.mp h) p hp
    cases hv : p.2 with
    | str s => exact ⟨s, by simp [hv]⟩
    | num n => rw [hv] at this; simp at this

theorem jsTrim_mk (l : List Char) : jsTrim (String.mk l) = String.mk (trimChars l) := rfl

/-- Reduction of `cardNameBranch` on a string `Card Name` cell. -/
theorem cardNameBranch_str {r : RawRow} {s : String}
    (hc : getCell r "Card Name" = some (.str s)) :
    cardNameBranch r =
      (if s ≠ "" ∧ jsTrim s ≠ "" then
        Except.ok
          (match findProperChain (jsTrim s) with
            | some g => if g ≠ "" then jsTrim g else jsTrim s
            | none => jsTrim s)
       else Except.ok "Unknown Player") := by
  unfold cardNameBranch
  rw [hc]

/-- The `Card Name` branch yields a non-empty name on string rows. -/
theorem cardNameBranch_ok {r : RawRow} (h : rowAllStr r = true) :
    ∃ s, cardNameBranch r = .ok s ∧ s ≠ "" := by
  rcases rowAllStr_getCell h "Card Name" with hc | ⟨s, hc⟩
  · exact ⟨"Unknown Player", by simp [cardNameBranch, hc], by decide⟩
  · rw [cardNameBranch_str hc]
    by_cases hg : s ≠ "" ∧ jsTrim s ≠ ""
    · rw [if_pos hg]
      cases hfp : findProperChain (jsTrim s) with
      | none => exact ⟨jsTrim s, by simp, hg.2⟩
      | some g =>
        by_cases hge : g ≠ ""
        · exact ⟨jsTrim g, by simp [hge], findProperChain_trim_ne hfp⟩
        · exact ⟨jsTrim s, by simp [hge], hg.2⟩
    · rw [if_neg hg]
      exact ⟨"Unknown Player", rfl, by decide⟩

/-- Reduction of `playerNameOf` on a string `Player Name` cell. -/
theorem playerNameOf_str {r : RawRow} {s : String}
    (hp : getCell r "Player Name" = some (.str s)) :
    playerNameOf r =
      (if s ≠ "" ∧ jsTrim s ≠ "" then Except.ok (jsTrim s) else cardNameBranch r) := by
  unfold playerNameOf
  rw [hp]

/-- Player-name resolution yields a non-empty name on string rows. -/
theorem playerNameOf_ok {r : RawRow} (h : rowAllStr r = true) :
    ∃ s, playerNameOf r = .ok s ∧ s ≠ "" := by
  rcases rowAllStr_getCell h "Player Name" with hp | ⟨s, hp⟩
  · obtain ⟨s, hok, hne⟩ := cardNameBranch_ok h
    exact ⟨s, by simp [playerNameOf, hp, hok], hne⟩
  · rw [playerNameOf_str hp]
    by_cases hg : s ≠ "" ∧ jsTrim s ≠ ""
    · exact ⟨jsTrim s, by rw [if_pos hg], hg.2⟩
    · obtain ⟨t, hok, hne⟩ := cardNameBranch_ok h
      exact ⟨t, by rw [if_neg hg, hok], hne⟩

theorem jsToLower_ne_empty {s : String} (h : s ≠ "") : jsToLower s ≠ "" := by
  rw [string_ne_empty_iff] at h ⊢
  show s.data.map lowerChar ≠ []
  simpa using h

/-- Sport field resolution on string rows: success, and membership in the
enumeration whenever the cell is absent, blank, or lower-cases into it. -/
theorem sportFieldOf_ok {r : RawRow} (h : rowAllStr r = true) :
    ∃ s, sportFieldOf r = .ok s ∧ s ≠ "" ∧
      (sportCellEnumOk r = true → s ∈ sportEnumList) := by
  rcases rowAllStr_getCell h "Sport" with hc | ⟨s, hc⟩
  · exact ⟨"soccer", by simp [sportFieldOf, hc], by decide, fun _ => by decide⟩
  · have hred : sportFieldOf r = .ok (if s ≠ "" then jsToLower s else "soccer") := by
      unfold sportFieldOf; rw [hc]
    have hokred : sportCellEnumOk r =
        (s == "" || sportEnumList.contains (jsToLower s)) := by
      unfold sportCellEnumOk; rw [hc]
    by_cases hs : s = ""
    · refine ⟨"soccer", by rw [hred]; simp [hs], by decide, fun _ => by decide⟩
    · refine ⟨jsToLower s, by rw [hred]; simp [hs], jsToLower_ne_empty hs, fun hok => ?_⟩
      rw [hokred] at hok
      simp only [List.contains, Bool.or_eq_true, beq_iff_eq] at hok
      rcases hok with h1 | h1
      · exact absurd h1 hs
      · exact List.elem_iff.mp h1

/-- Condition field resolution on string rows. -/
theorem conditionFieldOf_ok {r : RawRow} (h : rowAllStr r = true) :
    ∃ s, conditionFieldOf r = .ok s ∧ s ≠ "" ∧
      (conditionCellEnumOk r = true → s ∈ conditionEnumList) := by
  rcases rowAllStr_getCell h "Condition" with hc | ⟨s, hc⟩
  · exact ⟨"new", by simp [conditionFieldOf, hc], by decide, fun _ => by decide⟩
  · have hred : conditionFieldOf r = .ok (if s ≠ "" then jsToLower s else "new") := by
      unfold conditionFieldOf; rw [hc]
    have hokred : conditionCellEnumOk r =
        (s == "" || conditionEnumList.contains (jsToLower s)) := by
      unfold conditionCellEnumOk; rw [hc]
    by_cases hs : s = ""
    · refine ⟨"new", by rw [hred]; simp [hs], by decide, fun _ => by decide⟩
    · refine ⟨jsToLower s, by rw [hred]; simp [hs], jsToLower_ne_empty hs, fun hok => ?_⟩
      rw [hokred] at hok
      simp only [List.contains, Bool.or_eq_true, beq_iff_eq] at hok
      rcases hok with h1 | h1
      · exact absurd h1 hs
      · exact List.elem_iff.mp h1

/-- On string rows the bulk row mapper returns, with a non-empty player
name and enum-membership under the cell-level side conditions. -/
theorem mapImportRecord_ok {nowYear : Int} {r : RawRow} (h : rowAllStr r = true) :
    ∃ m, mapImportRecord nowYear r = .ok m ∧ m.playerName ≠ "" ∧
      (sportCellEnumOk r = true → m.sport ∈ sportEnumList) ∧
      (conditionCellEnumOk r = true → m.condition ∈ conditionEnumList) := by
  obtain ⟨pn, hpn, hpnne⟩ := playerNameOf_ok h
  obtain ⟨sp, hsp, hspne, hspmem⟩ := sportFieldOf_ok h
  obtain ⟨cond, hcond, hcondne, hcondmem⟩ := conditionFieldOf_ok h
  refine ⟨{ playerName := pn
          , sport := if sp = "" then "soccer" else sp
          , team := orNull (getCell r "Team")
          , brand := orNull (getCell r "Brand")
          , cardSet := orNull (getCell r "Card Set")
          , cardNumber := orNull (getCell r "Card Number")
          , condition := if cond = "" then "new" else cond
          , notes := jsOrOpt (getCell r "Features") (orNull (getCell r "Card Name"))
          , frontImageUrl := (imagesOf r).1
          , backImageUrl := (imagesOf r).2
          , year := yearFieldOf nowYear r
          , purchasePrice := 0
          , currentValue := 0 }, ?_, hpnne, ?_, ?_⟩
  · simp only [mapImportRecord, hpn, hsp, hcond]
    rfl
  · simpa [if_neg hspne] using hspmem
  · simpa [if_neg hcondne] using hcondmem

/-- The eBay condition table only produces enumerated conditions or
`"unknown"`. -/
theorem mapEbayConditionToSchema_mem {i d : Option CellValue} {s : String}
    (h : mapEbayConditionToSchema i d = .ok s) :
    s ∈ conditionEnumList ∨ s = "unknown" := by
  unfold mapEbayConditionToSchema at h
  split at h
  · cases h; right; rfl
  · cases hd : d with
    | none => rw [hd] at h; exact Except.noConfusion h
    | some v =>
      cases v with
      | num n => rw [hd] at h; exact Except.noConfusion h
      | str dd =>
        rw [hd] at h
        have hs := Except.ok.inj h
        rw [← hs]
        split_ifs <;> simp [conditionEnumList]

/-- `jsOrOpt` of two string-row cells is absent or a string. -/
theorem jsOrOpt_str {r : RawRow} (h : rowAllStr r = true) (k1 k2 : String) :
    jsOrOpt (getCell r k1) (getCell r k2) = none ∨
      ∃ s, jsOrOpt (getCell r k1) (getCell r k2) = some (.str s) := by
  unfold jsOrOpt
  split
  · exact rowAllStr_getCell h k1
  · exact rowAllStr_getCell h k2

/-- The eBay condition mapper returns whenever its description argument
is a string or is missing together with a falsy ID. -/
theorem mapEbayConditionToSchema_ok {i d : Option CellValue}
    (hstr : d = none ∨ ∃ s, d = some (.str s))
    (hd : truthyOpt i = true → isStrCell d = true) :
    ∃ s, mapEbayConditionToSchema i d = .ok s := by
  unfold mapEbayConditionToSchema
  split
  · exact ⟨"unknown", rfl⟩
  · rename_i hcond
    rcases hstr with rfl | ⟨s, rfl⟩
    · have hti : truthyOpt i = true := by
        cases hti : truthyOpt i
        · exact absurd (by rw [hti]; rfl) hcond
        · rfl
      exact absurd (hd hti) (by simp [isStrCell])
    · exact ⟨_, rfl⟩

/-- On string rows with a string `Title` and a string condition
description whenever `ConditionID` is truthy, the eBay mapper returns a
card whose condition is enumerated or `"unknown"`. -/
theorem mapEbayRowToCard_ok {nowYear : Int} {nowIso : String} {e : RawRow}
    (he : rowAllStr e = true) (ht : isStrCell (getCell e "Title") = true)
    (hd : truthyOpt (getCell e "ConditionID") = true →
      isStrCell (jsOrOpt (getCell e "C:ConditionDescription")
        (getCell e "ConditionDescription")) = true) :
    ∃ c, mapEbayRowToCard nowYear nowIso e = .ok c ∧
      (c.condition ∈ conditionEnumList ∨ c.condition = "unknown") := by
  obtain ⟨t, hT⟩ : ∃ t, ebayTitleOf e = .ok t := by
    cases hx : getCell e "Title" with
    | none => rw [hx] at ht; simp [isStrCell] at ht
    | some v =>
      cases v with
      | str s => exact ⟨s, by simp [ebayTitleOf, hx]⟩
      | num n => rw [hx] at ht; simp [isStrCell] at ht
  obtain ⟨sv, hsv⟩ : ∃ sv, ebaySportOf e = .ok sv := by
    unfold ebaySportOf
    rcases rowAllStr_getCell he "C:Sport" with hc | ⟨s, hc⟩
    · rw [hc]; exact ⟨jsToLower "", rfl⟩
    · rw [hc]
      by_cases hs : s = ""
      · subst hs; exact ⟨jsToLower "", rfl⟩
      · refine ⟨jsToLower s, ?_⟩
        simp [jsOrOpt, truthyOpt, truthyCell, hs]
  obtain ⟨cv, hcv⟩ := mapEbayConditionToSchema_ok
    (jsOrOpt_str he "C:ConditionDescription" "ConditionDescription") hd
  refine ⟨{ playerName := ebayPlayerOf e t
          , sport := sv
          , year := ebayYearOf nowYear e t
          , brand := orNull (getCell e "C:Manufacturer")
          , cardSet := orNull (getCell e "C:Set")
          , cardNumber := ebayCardNumberOf e t
          , condition := cv
          , currentValue := ebayPriceOf t
          , purchasePrice := none
          , notes := "Imported from eBay: " ++ t
          , team := orNull (getCell e "C:Team")
          , frontImageUrl := orNull (getCell e "PicURL")
          , backImageUrl := none
          , createdAt := nowIso }, ?_, ?_⟩
  · simp only [mapEbayRowToCard, hT, hsv, hcv]
    rfl
  · exact mapEbayConditionToSchema_mem hcv

/-- C1: the claim states that the bulk row mapper never throws on any
RawRow (including numeric cells) and always yields a non-empty
playerName with enumerated sport and condition, and likewise for the
eBay mapper.  The code refutes it: a truthy numeric `Player Name` cell
throws a `TypeError`, a `Sport` cell of `"Tennis"` is passed through
lower-cased as `"tennis"` which is outside the sport enumeration, and
the eBay mapper can emit the condition `"unknown"` (outside the
condition enumeration) together with an empty playerName. -/
theorem claim_C1_counterexample :
    mapImportRecord 2026
        [("Player Name", CellValue.str "John Doe"), ("Sport", CellValue.str "Tennis")] =
      .ok { playerName := "John Doe", sport := "tennis", team := none, brand := none,
            cardSet := none, cardNumber := none, condition := "new", notes := none,
            frontImageUrl := none, backImageUrl := none, year := 2026,
            purchasePrice := 0, currentValue := 0 } ∧
    "tennis" ∉ sportEnumList ∧
    mapImportRecord 2026 [("Player Name", CellValue.num 5)] = .error () ∧
    mapEbayRowToCard 2026 "2026-01-01" [("Title", CellValue.str "")] =
      .ok { playerName := CellValue.str "", sport := "", year := 2026, brand := none,
            cardSet := none, cardNumber := none, condition := "unknown", currentValue := none,
            purchasePrice := none, notes := "Imported from eBay: ", team := none,
            frontImageUrl := none, backImageUrl := none, createdAt := "2026-01-01" } ∧
    "unknown" ∉ conditionEnumList := by
  decide

/-- C1 (amended): on rows whose cells are all strings the bulk row
mapper never throws and yields a non-empty playerName; its sport
(resp. condition) is in the enumeration whenever the `Sport`
(resp. `Condition`) cell is absent, blank, or lower-cases into the
enumeration.  The eBay mapper, on string rows whose `Title` is a string
and whose condition description is a string whenever `ConditionID` is
truthy, returns a card whose condition is in the condition enumeration
extended with `"unknown"`. -/
theorem claim_C1 (nowYear : Int) (r : RawRow) (nowY2 : Int) (nowIso : String) (e : RawRow)
    (hr : rowAllStr r = true) (he : rowAllStr e = true)
    (ht : isStrCell (getCell e "Title") = true)
    (hd : truthyOpt (getCell e "ConditionID") = true →
      isStrCell (jsOrOpt (getCell e "C:ConditionDescription")
        (getCell e "ConditionDescription")) = true) :
    (∃ m, mapImportRecord nowYear r = .ok m ∧ m.playerName ≠ "" ∧
      (sportCellEnumOk r = true → m.sport ∈ sportEnumList) ∧
      (conditionCellEnumOk r = true → m.condition ∈ conditionEnumList)) ∧
    (∃ c, mapEbayRowToCard nowY2 nowIso e = .ok c ∧
      (c.condition ∈ conditionEnumList ∨ c.condition = "unknown")) :=
  ⟨mapImportRecord_ok hr, mapEbayRowToCard_ok he ht hd⟩

/-- C1 witness: the amended theorem applied to concrete rows. -/
theorem claim_C1_witness :
    (∃ m, mapImportRecord 2026 [("Player Name", CellValue.str "Jo")] = .ok m ∧
      m.playerName ≠ "" ∧
      (sportCellEnumOk [("Player Name", CellValue.str "Jo")] = true → m.sport ∈ sportEnumList) ∧
      (conditionCellEnumOk [("Player Name", CellValue.str "Jo")] = true →
        m.condition ∈ conditionEnumList)) ∧
    (∃ c, mapEbayRowToCard 2026 "2026-01-01"
        [("Title", CellValue.str "Mia Hamm 1999 #9")] = .ok c ∧
      (c.condition ∈ conditionEnumList ∨ c.condition = "unknown")) :=
  claim_C1 2026 _ 2026 "2026-01-01" _ (by decide) (by decide) (by decide) (by decide)

/-- C2: the claim predicts playerName `"Michael Jordan"` for the sample
line, but the player-name regex `([A-Z][a-z]+\s+[A-Z][a-z]+)` finds its
leftmost match at `"Fleer Ultra"`. -/
theorem claim_C2_counterexample :
    (textLineToCard 2026 "1996 Fleer Ultra Michael Jordan #23 PSA 10 Mint").playerName =
      "Fleer Ultra" ∧ "Fleer Ultra" ≠ "Michael Jordan" := by
  decide

/-- C2 (amended): the text importer maps the sample line to the claimed
card except that playerName is `"Fleer Ultra"` (the leftmost two-
capitalised-words match), with the full line preserved as notes and the
prices held as the string `"0"`. -/
theorem claim_C2 :
    textLineToCard 2026 "1996 Fleer Ultra Michael Jordan #23 PSA 10 Mint" =
      { playerName := "Fleer Ultra", sport := "soccer", year := 1996, condition := "mint",
        brand := some "Fleer", cardSet := some "Ultra", cardNumber := some "23", team := none,
        purchasePrice := "0", currentValue := "0",
        notes := "1996 Fleer Ultra Michael Jordan #23 PSA 10 Mint",
        frontImageUrl := none, backImageUrl := none } := by
  decide

/-- C3: the claim's reference table disagrees with the code's
`conditionTerms`: the code maps `PSA 7` to `"excellent"` (via
`psa\s*[78]`), `PSA 5` to `"veryGood"` (via `psa\s*[56]`), and
`"BGS 9.5 Near Mint"` to `"mint"` (the first entry's `\bmint\b` matches
inside `"Near Mint"`). -/
theorem claim_C3_counterexample :
    conditionOf "PSA 7" = "excellent" ∧ "excellent" ≠ "veryGood" ∧
    conditionOf "PSA 5" = "veryGood" ∧ "veryGood" ≠ "good" ∧
    conditionOf "BGS 9.5 Near Mint" = "mint" ∧ "mint" ≠ "nearMint" := by
  decide

/-- C3 (amended): the condition extractor's ordered first-match-wins
table yields, on the cited single-grading-token inputs: mint for
`"PSA 10 Gem Mint"`, mint (not nearMint) for `"BGS 9.5 Near Mint"`,
excellent for `"PSA 7"`, veryGood for `"PSA 6"` and `"PSA 5"`, good for
`"PSA 4"`, and fair for `"PSA 2"` and `"PSA 1"`. -/
theorem claim_C3 :
    conditionOf "PSA 10 Gem Mint" = "mint" ∧
    conditionOf "BGS 9.5 Near Mint" = "mint" ∧
    conditionOf "PSA 7" = "excellent" ∧
    conditionOf "PSA 6" = "veryGood" ∧
    conditionOf "PSA 5" = "veryGood" ∧
    conditionOf "PSA 4" = "good" ∧
    conditionOf "PSA 2" = "fair" ∧
    conditionOf "PSA 1" = "fair" := by
  decide

/-- C9: the claim says notes preserves the line verbatim including
surrounding whitespace, but the code stores `line.trim()`. -/
theorem claim_C9_counterexample :
    (textLineToCard 2026 " Mint ").notes = "Mint" ∧ "Mint" ≠ " Mint " := by
  decide

/-- C9 (amended): for every input line the text importer's notes field
is the line with leading/trailing whitespace removed — hence the line
verbatim exactly when the line has no surrounding whitespace. -/
theorem claim_C9 :
    (∀ (nowYear : Int) (line : String), (textLineToCard nowYear line).notes = jsTrim line) ∧
    (∀ (nowYear : Int) (line : String), trimChars line.data = line.data →
      (textLineToCard nowYear line).notes = line) := by
  constructor
  · intro nowYear line; rfl
  · intro nowYear line h
    show jsTrim line = line
    unfold jsTrim
    rw [h]

/-- C9 witness: the amended theorem applied to a concrete line. -/
theorem claim_C9_witness : (textLineToCard 2026 "abc").notes = "abc" :=
  claim_C9.2 2026 "abc" (by decide)

/-! ## Lemmas on the first copy's `mappedRecord` object -/

theorem lookupV1_cons (k' : String) (v' : V1Val) (m : List (String × V1Val)) (k : String) :
    lookupV1 ((k', v') :: m) k = if k' = k then some v' else lookupV1 m k := by
  by_cases h : k' = k <;> simp [lookupV1, List.find?_cons, h]

theorem lookupV1_setKey_same (m : List (String × V1Val)) (k : String) (v : V1Val) :
    lookupV1 (setKey m k v) k = some v := by
  induction m with
  | nil => simp [setKey, lookupV1_cons, lookupV1]
  | cons p m ih =>
    obtain ⟨k', v'⟩ := p
    by_cases h : k' = k
    · simp [setKey, h, lookupV1_cons]
    · simp [setKey, h, lookupV1_cons, ih]

theorem lookupV1_setKey_other {k k' : String} (h : k' ≠ k) (m : List (String × V1Val))
    (v : V1Val) : lookupV1 (setKey m k v) k' = lookupV1 m k' := by
  have hne : ¬ k = k' := fun hh => h hh.symm
  induction m with
  | nil =>
    show lookupV1 [(k, v)] k' = lookupV1 [] k'
    rw [lookupV1_cons, if_neg hne]
  | cons p m ih =>
    obtain ⟨k0, v0⟩ := p
    show lookupV1 (if k0 = k then (k, v) :: m else (k0, v0) :: setKey m k v) k' = _
    by_cases h0 : k0 = k
    · rw [if_pos h0, lookupV1_cons, lookupV1_cons, if_neg hne,
        if_neg (fun hh => hne (h0.symm.trans hh))]
    · rw [if_neg h0, lookupV1_cons, lookupV1_cons, ih]

theorem lookupV1_convertKey_other (k k' : String) (h : k' ≠ k)
    (m : List (String × V1Val)) (conv : V1Val → V1Val) :
    lookupV1 (convertKey m k conv) k' = lookupV1 m k' := by
  unfold convertKey
  cases lookupV1 m k with
  | none => rfl
  | some v =>
    by_cases ht : truthyV1 v
    · simp [ht, lookupV1_setKey_other h]
    · simp [ht]

theorem lookupV1_convertKey_same (conv : V1Val → V1Val) {m : List (String × V1Val)}
    {k : String} {v : V1Val} (h : lookupV1 m k = some v) :
    lookupV1 (convertKey m k conv) k =
      some (if truthyV1 v then conv v else v) := by
  unfold convertKey
  rw [h]
  by_cases ht : truthyV1 v
  · simp [ht, lookupV1_setKey_same]
  · simp [ht, h]

theorem foldl_v1Step_lookup_not_mem (r : RawRow) (f : String) :
    ∀ (mapping : List (String × String)) (acc : List (String × V1Val)),
      f ∉ mapping.map Prod.fst →
      lookupV1 (mapping.foldl (v1Step r) acc) f = lookupV1 acc f := by
  intro mapping
  induction mapping with
  | nil => intro acc _; rfl
  | cons q rest ih =>
    intro acc hnm
    obtain ⟨qf, qc⟩ := q
    have hq : f ∉ rest.map Prod.fst := fun hh => hnm (by simp [hh])
    have hqf : qf ≠ f := fun hh => hnm (by simp [hh])
    rw [List.foldl_cons, ih _ hq]
    unfold v1Step
    split
    · exact lookupV1_setKey_other (fun hh => hqf hh.symm) _ _
    · rfl

theorem mapV1Stage1_lookup (r : RawRow) (f col : String) (v : CellValue)
    (hcol : col ≠ "") (hcoln : col ≠ "none") (hcell : getCell r col = some v) :
    ∀ (mapping : List (String × String)) (acc : List (String × V1Val)),
      (mapping.map Prod.fst).Nodup → (f, col) ∈ mapping →
      lookupV1 (mapping.foldl (v1Step r) acc) f = some (.cv v) := by
  intro mapping
  induction mapping with
  | nil => intro acc _ hmem; simp at hmem
  | cons q rest ih =>
    intro acc hnod hmem
    obtain ⟨qf, qc⟩ := q
    rw [List.map_cons, List.nodup_cons] at hnod
    obtain ⟨hqf, hnod'⟩ := hnod
    rw [List.foldl_cons]
    rcases List.mem_cons.mp hmem with heq | hmem'
    · have hf : f = qf := congrArg Prod.fst heq
      have hcq : col = qc := congrArg Prod.snd heq
      subst hf
      subst hcq
      have hg : col ≠ "" ∧ col ≠ "none" ∧ (getCell r col).isSome :=
        ⟨hcol, hcoln, by rw [hcell]; rfl⟩
      rw [show v1Step r acc (f, col) = setKey acc f (.cv ((getCell r col).getD (.str ""))) from
        by unfold v1Step; rw [if_pos hg]]
      rw [foldl_v1Step_lookup_not_mem r f rest _ hqf, lookupV1_setKey_same]
      rw [hcell]
      rfl
    · exact ih _ hnod' hmem'

/-- C4: the claim says the caller-supplied ColumnMapping determines
which cell feeds each field of the persisted candidate.  The batch
importer's mapper (second copy) ignores the mapping: with a mapping
assigning `team ← "MyTeam"` and a row whose `MyTeam` cell is
`"Lakers"`, the imported card's team is `null`. -/
theorem claim_C4_counterexample :
    importV2 2026 (some [("team", "MyTeam")]) (fun _ => none)
        [[("Player Name", CellValue.str "John"), ("MyTeam", CellValue.str "Lakers")]] =
      .okResponse "Import completed: 1 cards imported, 0 failed"
        [.success
          { playerName := "John", sport := "soccer", year := 2026, condition := "new",
            team := none, brand := none, cardSet := none, cardNumber := none,
            purchasePrice := "0", currentValue := "0", notes := none,
            frontImageUrl := none, backImageUrl := none }] ∧
    (none : Option CellValue) ≠ some (CellValue.str "Lakers") := by
  decide

/-- C4 (amended): only the first copy's mapper obeys the claim — each
canonical field is read from the mapping-assigned column whenever that
column name is non-empty, not `"none"`, and the cell is present (with
`parseInt`/`parseFloat` coercion of truthy `year`/`purchasePrice`/
`currentValue` values); the second copy's handler is entirely
independent of the supplied ColumnMapping. -/
theorem claim_C4 :
    (∀ (mapping : List (String × String)) (r : RawRow) (f col : String) (v : CellValue),
      (mapping.map Prod.fst).Nodup → (f, col) ∈ mapping → col ≠ "" → col ≠ "none" →
      getCell r col = some v →
      lookupV1 (mapRecordV1 mapping r) f = some (v1FinalVal f v)) ∧
    (∀ (nowYear : Int) (p q : Option (List (String × String)))
      (fails : Nat → Option String) (records : List RawRow),
      importV2 nowYear p fails records = importV2 nowYear q fails records) := by
  constructor
  · intro mapping r f col v hnod hmem hc hcn hcell
    have h1 : lookupV1 (mapV1Stage1 mapping r) f = some (.cv v) :=
      mapV1Stage1_lookup r f col v hc hcn hcell mapping [] hnod hmem
    unfold mapRecordV1 v1FinalVal
    by_cases hy : f = "year"
    · subst hy
      have h2 := lookupV1_convertKey_same (fun w => V1Val.pint (parseIntV1 w)) h1
      rw [lookupV1_convertKey_other "currentValue" "year" (by decide),
        lookupV1_convertKey_other "purchasePrice" "year" (by decide), h2]
      rw [if_pos (show ("year" : String) = "year" from rfl)]
      rfl
    · by_cases hp : f = "purchasePrice"
      · subst hp
        have h2 : lookupV1 (convertKey (mapV1Stage1 mapping r) "year"
            (fun w => V1Val.pint (parseIntV1 w))) "purchasePrice" = some (.cv v) := by
          rw [lookupV1_convertKey_other "year" "purchasePrice" (by decide), h1]
        have h3 := lookupV1_convertKey_same (fun w => V1Val.pfloat (parseFloatV1 w)) h2
        rw [lookupV1_convertKey_other "currentValue" "purchasePrice" (by decide), h3]
        rw [if_neg (show ¬("purchasePrice" : String) = "year" by decide),
          if_pos (show ("purchasePrice" : String) = "purchasePrice" ∨
            ("purchasePrice" : String) = "currentValue" from Or.inl rfl)]
        rfl
      · by_cases hcv : f = "currentValue"
        · subst hcv
          have h2 : lookupV1 (convertKey (convertKey (mapV1Stage1 mapping r) "year"
              (fun w => V1Val.pint (parseIntV1 w))) "purchasePrice"
              (fun w => V1Val.pfloat (parseFloatV1 w))) "currentValue" = some (.cv v) := by
            rw [lookupV1_convertKey_other "purchasePrice" "currentValue" (by decide),
              lookupV1_convertKey_other "year" "currentValue" (by decide), h1]
          have h3 := lookupV1_convertKey_same (fun w => V1Val.pfloat (parseFloatV1 w)) h2
          rw [h3]
          rw [if_neg (show ¬("currentValue" : String) = "year" by decide),
            if_pos (show ("currentValue" : String) = "purchasePrice" ∨
              ("currentValue" : String) = "currentValue" from Or.inr rfl)]
          rfl
        · rw [lookupV1_convertKey_other "currentValue" f hcv,
            lookupV1_convertKey_other "purchasePrice" f hp,
            lookupV1_convertKey_other "year" f hy, h1]
          rw [if_neg hy, if_neg (show ¬(f = "purchasePrice" ∨ f = "currentValue") from
            fun hh => hh.elim hp hcv)]
  · intro nowYear p q fails records
    rfl

/-- C4 witness: the amended theorem's first part at a concrete mapping
and row. -/
theorem claim_C4_witness :
    lookupV1 (mapRecordV1 [("team", "MyTeam")] [("MyTeam", CellValue.str "Lakers")]) "team" =
      some (v1FinalVal "team" (CellValue.str "Lakers")) :=
  claim_C4.1 [("team", "MyTeam")] [("MyTeam", CellValue.str "Lakers")] "team" "MyTeam"
    (CellValue.str "Lakers") (by decide) (by decide) (by decide) (by decide) (by decide)

/-- C5: the claim says an unparseable `columnMap` aborts the import with
a 4xx before any row is processed.  The batch importer (second copy)
instead substitutes the default column mapping and proceeds: with a
failed parse (`none`) and one row, it still imports a card and answers
200. -/
theorem claim_C5_counterexample :
    importV2 2026 none (fun _ => none) [[("Player Name", CellValue.str "John")]] =
      .okResponse "Import completed: 1 cards imported, 0 failed"
        [.success
          { playerName := "John", sport := "soccer", year := 2026, condition := "new",
            team := none, brand := none, cardSet := none, cardNumber := none,
            purchasePrice := "0", currentValue := "0", notes := none,
            frontImageUrl := none, backImageUrl := none }] := by
  decide

/-- C5 (amended): only the first copy answers an unparseable
`columnMap` with the 400 `"Invalid column mapping"` before any row is
mapped or persisted; the second copy silently substitutes the default
column mapping and behaves exactly as if that default had been
supplied. -/
theorem claim_C5 :
    (∀ records : List RawRow,
      importV1Dispatch none records = .badRequest "Invalid column mapping") ∧
    (∀ (nowYear : Int) (fails : Nat → Option String) (records : List RawRow),
      importV2 nowYear none fails records =
        importV2 nowYear (some defaultColumnMap) fails records) := by
  constructor
  · intro records; rfl
  · intro nowYear fails records; rfl

/-! ## Batch counting lemmas -/

theorem oneFail_success_count (ny : Int) (fails : Nat → Option String) (i : Nat) (e : String)
    (hfi : fails i = some e) (hothers : ∀ j, j ≠ i → fails j = none) :
    ∀ (cards : List MappedRecord) (n : Nat),
      ((mapWithIndex (rowOutcome ny fails) n cards).filter RowResult.isSuccess).length =
        if n ≤ i ∧ i < n + cards.length then cards.length - 1 else cards.length := by
  intro cards
  induction cards with
  | nil =>
    intro n
    rw [if_neg (by rw [List.length_nil]; omega)]
    rfl
  | cons m rest ih =>
    intro n
    rw [show mapWithIndex (rowOutcome ny fails) n (m :: rest) =
      rowOutcome ny fails n m :: mapWithIndex (rowOutcome ny fails) (n + 1) rest from rfl]
    by_cases hn : n = i
    · subst hn
      have hro : rowOutcome ny fails n m = .failure
          ("Error processing record: " ++ jsOrStr m.playerName "Unknown" ++ " - " ++ e) m := by
        unfold rowOutcome; rw [hfi]
      rw [hro, List.filter_cons_of_neg (by simp [RowResult.isSuccess]), ih (n + 1)]
      rw [if_neg (by omega), if_pos (by rw [List.length_cons]; omega)]
      rw [List.length_cons]
      omega
    · have hro : rowOutcome ny fails n m = .success (toValidRecord ny m) := by
        unfold rowOutcome; rw [hothers n hn]
      rw [hro, List.filter_cons_of_pos (by simp [RowResult.isSuccess]), List.length_cons,
        ih (n + 1)]
      simp only [List.length_cons]
      split_ifs <;> omega

/-- The batch response of `importV2` once the per-row mapping outcomes
are fixed. -/
theorem importV2_ok (nowYear : Int) (parse : Option (List (String × String)))
    (fails : Nat → Option String) (records : List RawRow) (cards : List MappedRecord)
    (hseq : seqExcept ((records.filter survivesFilter).map (mapImportRecord nowYear)) =
      .ok cards) :
    importV2 nowYear parse fails records =
      .okResponse
        ("Import completed: " ++
          toString (((mapWithIndex (rowOutcome nowYear fails) 0 cards).filter
            RowResult.isSuccess).length) ++ " cards imported, " ++
          toString (((mapWithIndex (rowOutcome nowYear fails) 0 cards).filter
            (fun rr => !rr.isSuccess)).length) ++ " failed")
        (mapWithIndex (rowOutcome nowYear fails) 0 cards) := by
  simp only [importV2]
  rw [hseq]

/-- C6: per-row isolation of persistence failures, with the failure
message built from the row's player name (or `"Unknown"`) and the mapped
candidate echoed; all other rows still persist. -/
theorem claim_C6 (nowYear : Int) (parse : Option (List (String × String)))
    (fails : Nat → Option String) (records : List RawRow) (cards : List MappedRecord)
    (i : Nat) (e : String)
    (hseq : seqExcept ((records.filter survivesFilter).map (mapImportRecord nowYear)) =
      .ok cards)
    (hi : i < cards.length) (hfi : fails i = some e)
    (hothers : ∀ j, j ≠ i → fails j = none) :
    ∃ msg, importV2 nowYear parse fails records =
        .okResponse msg (mapWithIndex (rowOutcome nowYear fails) 0 cards) ∧
      ((mapWithIndex (rowOutcome nowYear fails) 0 cards).filter
        RowResult.isSuccess).length = cards.length - 1 ∧
      ((mapWithIndex (rowOutcome nowYear fails) 0 cards).filter
        (fun rr => !rr.isSuccess)).length = 1 ∧
      (mapWithIndex (rowOutcome nowYear fails) 0 cards)[i]? =
        (cards[i]?).map (fun m => .failure
          ("Error processing record: " ++ jsOrStr m.playerName "Unknown" ++ " - " ++ e) m) ∧
      (∀ j, j ≠ i → (mapWithIndex (rowOutcome nowYear fails) 0 cards)[j]? =
        (cards[j]?).map (fun m => .success (toValidRecord nowYear m))) := by
  have hsucc := oneFail_success_count nowYear fails i e hfi hothers cards 0
  rw [if_pos (by constructor <;> omega)] at hsucc
  have htot := length_filter_add_length_filter_not RowResult.isSuccess
    (mapWithIndex (rowOutcome nowYear fails) 0 cards)
  have hlen := mapWithIndex_length (rowOutcome nowYear fails) 0 cards
  refine ⟨_, importV2_ok nowYear parse fails records cards hseq, hsucc, by omega, ?_, ?_⟩
  · rw [mapWithIndex_getElem?]
    cases cards[i]? with
    | none => rfl
    | some m =>
      show some (rowOutcome nowYear fails (0 + i) m) = _
      rw [Nat.zero_add]
      unfold rowOutcome
      rw [hfi]
      rfl
  · intro j hj
    rw [mapWithIndex_getElem?]
    cases cards[j]? with
    | none => rfl
    | some m =>
      show some (rowOutcome nowYear fails (0 + j) m) = _
      rw [Nat.zero_add]
      unfold rowOutcome
      rw [hothers j hj]
      rfl

/-- C6 witness: a three-row batch whose middle row's persistence is
rejected. -/
theorem claim_C6_witness :
    ∃ msg, importV2 2026 none (fun j => if j = 1 then some "boom" else none)
        [[("Player Name", CellValue.str "A")], [("Player Name", CellValue.str "B")],
          [("Player Name", CellValue.str "C")]] =
        .okResponse msg (mapWithIndex
          (rowOutcome 2026 (fun j => if j = 1 then some "boom" else none)) 0
          [{ playerName := "A", sport := "soccer", team := none, brand := none,
             cardSet := none, cardNumber := none, condition := "new", notes := none,
             frontImageUrl := none, backImageUrl := none, year := 2026,
             purchasePrice := 0, currentValue := 0 },
           { playerName := "B", sport := "soccer", team := none, brand := none,
             cardSet := none, cardNumber := none, condition := "new", notes := none,
             frontImageUrl := none, backImageUrl := none, year := 2026,
             purchasePrice := 0, currentValue := 0 },
           { playerName := "C", sport := "soccer", team := none, brand := none,
             cardSet := none, cardNumber := none, condition := "new", notes := none,
             frontImageUrl := none, backImageUrl := none, year := 2026,
             purchasePrice := 0, currentValue := 0 }]) ∧
      ((mapWithIndex (rowOutcome 2026 (fun j => if j = 1 then some "boom" else none)) 0
        [{ playerName := "A", sport := "soccer", team := none, brand := none,
           cardSet := none, cardNumber := none, condition := "new", notes := none,
           frontImageUrl := none, backImageUrl := none, year := 2026,
           purchasePrice := 0, currentValue := 0 },
         { playerName := "B", sport := "soccer", team := none, brand := none,
           cardSet := none, cardNumber := none, condition := "new", notes := none,
           frontImageUrl := none, backImageUrl := none, year := 2026,
           purchasePrice := 0, currentValue := 0 },
         { playerName := "C", sport := "soccer", team := none, brand := none,
           cardSet := none, cardNumber := none, condition := "new", notes := none,
           frontImageUrl := none, backImageUrl := none, year := 2026,
           purchasePrice := 0, currentValue := 0 }]).filter
        RowResult.isSuccess).length = 3 - 1 ∧
      ((mapWithIndex (rowOutcome 2026 (fun j => if j = 1 then some "boom" else none)) 0
        [{ playerName := "A", sport := "soccer", team := none, brand := none,
           cardSet := none, cardNumber := none, condition := "new", notes := none,
           frontImageUrl := none, backImageUrl := none, year := 2026,
           purchasePrice := 0, currentValue := 0 },
         { playerName := "B", sport := "soccer", team := none, brand := none,
           cardSet := none, cardNumber := none, condition := "new", notes := none,
           frontImageUrl := none, backImageUrl := none, year := 2026,
           purchasePrice := 0, currentValue := 0 },
         { playerName := "C", sport := "soccer", team := none, brand := none,
           cardSet := none, cardNumber := none, condition := "new", notes := none,
           frontImageUrl := none, backImageUrl := none, year := 2026,
           purchasePrice := 0, currentValue := 0 }]).filter
        (fun rr => !rr.isSuccess)).length = 1 ∧
      (mapWithIndex (rowOutcome 2026 (fun j => if j = 1 then some "boom" else none)) 0
        [{ playerName := "A", sport := "soccer", team := none, brand := none,
           cardSet := none, cardNumber := none, condition := "new", notes := none,
           frontImageUrl := none, backImageUrl := none, year := 2026,
           purchasePrice := 0, currentValue := 0 },
         { playerName := "B", sport := "soccer", team := none, brand := none,
           cardSet := none, cardNumber := none, condition := "new", notes := none,
           frontImageUrl := none, backImageUrl := none, year := 2026,
           purchasePrice := 0, currentValue := 0 },
         { playerName := "C", sport := "soccer", team := none, brand := none,
           cardSet := none, cardNumber := none, condition := "new", notes := none,
           frontImageUrl := none, backImageUrl := none, year := 2026,
           purchasePrice := 0, currentValue := 0 }])[1]? =
        (([{ playerName := "A", sport := "soccer", team := none, brand := none,
             cardSet := none, cardNumber := none, condition := "new", notes := none,
             frontImageUrl := none, backImageUrl := none, year := 2026,
             purchasePrice := 0, currentValue := 0 },
           { playerName := "B", sport := "soccer", team := none, brand := none,
             cardSet := none, cardNumber := none, condition := "new", notes := none,
             frontImageUrl := none, backImageUrl := none, year := 2026,
             purchasePrice := 0, currentValue := 0 },
           { playerName := "C", sport := "soccer", team := none, brand := none,
             cardSet := none, cardNumber := none, condition := "new", notes := none,
             frontImageUrl := none, backImageUrl := none, year := 2026,
             purchasePrice := 0, currentValue := 0 }] : List MappedRecord)[1]?).map
          (fun m => .failure
            ("Error processing record: " ++ jsOrStr m.playerName "Unknown" ++ " - " ++ "boom") m) ∧
      (∀ j, j ≠ 1 →
        (mapWithIndex (rowOutcome 2026 (fun j => if j = 1 then some "boom" else none)) 0
          [{ playerName := "A", sport := "soccer", team := none, brand := none,
             cardSet := none, cardNumber := none, condition := "new", notes := none,
             frontImageUrl := none, backImageUrl := none, year := 2026,
             purchasePrice := 0, currentValue := 0 },
           { playerName := "B", sport := "soccer", team := none, brand := none,
             cardSet := none, cardNumber := none, condition := "new", notes := none,
             frontImageUrl := none, backImageUrl := none, year := 2026,
             purchasePrice := 0, currentValue := 0 },
           { playerName := "C", sport := "soccer", team := none, brand := none,
             cardSet := none, cardNumber := none, condition := "new", notes := none,
             frontImageUrl := none, backImageUrl := none, year := 2026,
             purchasePrice := 0, currentValue := 0 }])[j]? =
          (([{ playerName := "A", sport := "soccer", team := none, brand := none,
               cardSet := none, cardNumber := none, condition := "new", notes := none,
               frontImageUrl := none, backImageUrl := none, year := 2026,
               purchasePrice := 0, currentValue := 0 },
             { playerName := "B", sport := "soccer", team := none, brand := none,
               cardSet := none, cardNumber := none, condition := "new", notes := none,
               frontImageUrl := none, backImageUrl := none, year := 2026,
               purchasePrice := 0, currentValue := 0 },
             { playerName := "C", sport := "soccer", team := none, brand := none,
               cardSet := none, cardNumber := none, condition := "new", notes := none,
               frontImageUrl := none, backImageUrl := none, year := 2026,
               purchasePrice := 0, currentValue := 0 }] : List MappedRecord)[j]?).map
            (fun m => .success (toValidRecord 2026 m))) :=
  claim_C6 2026 none (fun j => if j = 1 then some "boom" else none) _ _ 1 "boom"
    (by decide) (by decide) (by decide)
    (fun j hj => by simp only [if_neg hj])

/-- C7: the claim says every batch's response carries one ImportResult
per surviving row with matching message counts, but the code refutes
it: a surviving row whose `Player Name` cell is a truthy number makes
`record["Player Name"].trim()` throw inside the synchronous
`records.map`, and the handler answers the 500
`"Failed to import cards"` with no results at all — one surviving row,
zero ImportResults. -/
theorem claim_C7_counterexample :
    importV2 2026 none (fun _ => none) [[("Player Name", CellValue.num 5)]] =
      .serverError "Failed to import cards" ∧
    ([[("Player Name", CellValue.num 5)]].filter survivesFilter).length = 1 ∧
    (∀ msg results, ImportResponse.serverError "Failed to import cards" ≠
      .okResponse msg results) := by
  refine ⟨by decide, by decide, ?_⟩
  intro msg results h
  exact ImportResponse.noConfusion h

/-- C7 (amended): for every batch whose surviving rows all map without
a thrown TypeError, the response carries exactly one result per
surviving row, in input order, and its message reports `N` imported and
`M` failed with `N + M` equal to the number of surviving rows (a batch
with a surviving row that throws in the mapper is instead answered with
the 500 `"Failed to import cards"` and no results, as exhibited above at
a concrete batch). -/
theorem claim_C7 (nowYear : Int) (parse : Option (List (String × String)))
    (fails : Nat → Option String) (records : List RawRow) (cards : List MappedRecord)
    (hseq : seqExcept ((records.filter survivesFilter).map (mapImportRecord nowYear)) =
      .ok cards) :
    ∃ N M, importV2 nowYear parse fails records =
        .okResponse
          ("Import completed: " ++ toString N ++ " cards imported, " ++
            toString M ++ " failed")
          (mapWithIndex (rowOutcome nowYear fails) 0 cards) ∧
      N + M = (records.filter survivesFilter).length ∧
      (mapWithIndex (rowOutcome nowYear fails) 0 cards).length =
        (records.filter survivesFilter).length ∧
      (∀ j, (mapWithIndex (rowOutcome nowYear fails) 0 cards)[j]? =
        (cards[j]?).map (rowOutcome nowYear fails j)) := by
  have hclen : cards.length = (records.filter survivesFilter).length := by
    have := seqExcept_ok_length hseq
    rwa [List.length_map] at this
  have htot := length_filter_add_length_filter_not RowResult.isSuccess
    (mapWithIndex (rowOutcome nowYear fails) 0 cards)
  have hlen := mapWithIndex_length (rowOutcome nowYear fails) 0 cards
  refine ⟨_, _, importV2_ok nowYear parse fails records cards hseq, by omega, by omega, ?_⟩
  intro j
  rw [mapWithIndex_getElem?, Nat.zero_add]

/-- C7 witness: a concrete two-row batch with one persistence failure. -/
theorem claim_C7_witness :
    ∃ N M, importV2 2026 none (fun j => if j = 0 then some "x" else none)
        [[("Player Name", CellValue.str "A")], [("Player Name", CellValue.str "B")]] =
        .okResponse
          ("Import completed: " ++ toString N ++ " cards imported, " ++
            toString M ++ " failed")
          (mapWithIndex (rowOutcome 2026 (fun j => if j = 0 then some "x" else none)) 0
            [{ playerName := "A", sport := "soccer", team := none, brand := none,
               cardSet := none, cardNumber := none, condition := "new", notes := none,
               frontImageUrl := none, backImageUrl := none, year := 2026,
               purchasePrice := 0, currentValue := 0 },
             { playerName := "B", sport := "soccer", team := none, brand := none,
               cardSet := none, cardNumber := none, condition := "new", notes := none,
               frontImageUrl := none, backImageUrl := none, year := 2026,
               purchasePrice := 0, currentValue := 0 }]) ∧
      N + M = ([[("Player Name", CellValue.str "A")],
        [("Player Name", CellValue.str "B")]].filter survivesFilter).length ∧
      (mapWithIndex (rowOutcome 2026 (fun j => if j = 0 then some "x" else none)) 0
        [{ playerName := "A", sport := "soccer", team := none, brand := none,
           cardSet := none, cardNumber := none, condition := "new", notes := none,
           frontImageUrl := none, backImageUrl := none, year := 2026,
           purchasePrice := 0, currentValue := 0 },
         { playerName := "B", sport := "soccer", team := none, brand := none,
           cardSet := none, cardNumber := none, condition := "new", notes := none,
           frontImageUrl := none, backImageUrl := none, year := 2026,
           purchasePrice := 0, currentValue := 0 }]).length =
        ([[("Player Name", CellValue.str "A")],
          [("Player Name", CellValue.str "B")]].filter survivesFilter).length ∧
      (∀ j, (mapWithIndex (rowOutcome 2026 (fun j => if j = 0 then some "x" else none)) 0
        [{ playerName := "A", sport := "soccer", team := none, brand := none,
           cardSet := none, cardNumber := none, condition := "new", notes := none,
           frontImageUrl := none, backImageUrl := none, year := 2026,
           purchasePrice := 0, currentValue := 0 },
         { playerName := "B", sport := "soccer", team := none, brand := none,
           cardSet := none, cardNumber := none, condition := "new", notes := none,
           frontImageUrl := none, backImageUrl := none, year := 2026,
           purchasePrice := 0, currentValue := 0 }])[j]? =
        (([{ playerName := "A", sport := "soccer", team := none, brand := none,
             cardSet := none, cardNumber := none, condition := "new", notes := none,
             frontImageUrl := none, backImageUrl := none, year := 2026,
             purchasePrice := 0, currentValue := 0 },
           { playerName := "B", sport := "soccer", team := none, brand := none,
             cardSet := none, cardNumber := none, condition := "new", notes := none,
             frontImageUrl := none, backImageUrl := none, year := 2026,
             purchasePrice := 0, currentValue := 0 }] : List MappedRecord)[j]?).map
          (rowOutcome 2026 (fun j => if j = 0 then some "x" else none) j)) :=
  claim_C7 2026 none (fun j => if j = 0 then some "x" else none) _ _ (by decide)

/-! ## Lemmas on splitting, trimming and substring search (image URLs) -/

theorem isPrefixOf_head_mem {c : Char} {p l : List Char}
    (h : List.isPrefixOf (c :: p) l = true) : c ∈ l := by
  cases l with
  | nil => simp [List.isPrefixOf] at h
  | cons d l' =>
    have h' : (c == d && List.isPrefixOf p l') = true := h
    rw [Bool.and_eq_true] at h'
    rw [eq_of_beq h'.1]
    exact List.mem_cons_self _ _

theorem subOccurs_head_mem {c : Char} {p l : List Char}
    (h : subOccurs (c :: p) l = true) : c ∈ l := by
  induction l with
  | nil => simp [subOccurs] at h
  | cons d l ih =>
    unfold subOccurs at h
    rw [Bool.or_eq_true] at h
    rcases h with hpre | hrec
    · exact isPrefixOf_head_mem hpre
    · exact List.mem_cons_of_mem d (ih hrec)

theorem trimChars_subset {x : Char} {l : List Char} (h : x ∈ trimChars l) : x ∈ l := by
  unfold trimChars at h
  rw [List.mem_reverse] at h
  have h1 := (List.dropWhile_suffix jsWsChar).subset h
  rw [List.mem_reverse] at h1
  exact (List.dropWhile_suffix jsWsChar).subset h1

theorem mem_splitOnChar_of_mem (sep : Char) :
    ∀ (l : List Char) (c : Char), c ∈ l → c ≠ sep →
      ∃ seg ∈ splitOnChar sep l, c ∈ seg := by
  intro l
  induction l with
  | nil => intro c hc; simp at hc
  | cons d l ih =>
    intro c hc hcs
    have hred0 : splitOnChar sep (d :: l) =
        (if d == sep then [] :: splitOnChar sep l
         else
          match splitOnChar sep l with
          | [] => [[d]]
          | p :: ps => (d :: p) :: ps) := rfl
    by_cases hd : d == sep
    · rw [show splitOnChar sep (d :: l) = [] :: splitOnChar sep l from by
        rw [hred0, if_pos hd]]
      rcases List.mem_cons.mp hc with rfl | hc'
      · exact absurd (eq_of_beq hd) hcs
      · obtain ⟨seg, hseg, hcseg⟩ := ih c hc' hcs
        exact ⟨seg, List.mem_cons_of_mem _ hseg, hcseg⟩
    · have hred : splitOnChar sep (d :: l) =
          (match splitOnChar sep l with
            | [] => [[d]]
            | p :: ps => (d :: p) :: ps) := by
        rw [hred0, if_neg hd]
      rcases List.mem_cons.mp hc with rfl | hc'
      · cases hsp : splitOnChar sep l with
        | nil => rw [hred, hsp]; exact ⟨[c], by simp⟩
        | cons p ps => rw [hred, hsp]; exact ⟨c :: p, by simp⟩
      · obtain ⟨seg, hseg, hcseg⟩ := ih c hc' hcs
        cases hsp : splitOnChar sep l with
        | nil => rw [hsp] at hseg; simp at hseg
        | cons p ps =>
          rw [hsp] at hseg
          rcases List.mem_cons.mp hseg with rfl | hseg'
          · rw [hred, hsp]
            exact ⟨d :: seg, by simp, List.mem_cons_of_mem d hcseg⟩
          · rw [hred, hsp]
            exact ⟨seg, List.mem_cons_of_mem _ hseg', hcseg⟩

theorem splitOnChar_not_mem {sep : Char} :
    ∀ {l : List Char}, sep ∉ l → splitOnChar sep l = [l] := by
  intro l
  induction l with
  | nil => intro _; rfl
  | cons d l ih =>
    intro hns
    have hd : ¬ d == sep := by
      intro hh
      exact hns (by rw [eq_of_beq hh]; exact List.mem_cons_self sep l)
    have hl : sep ∉ l := fun hh => hns (List.mem_cons_of_mem d hh)
    have hred0 : splitOnChar sep (d :: l) =
        (if d == sep then [] :: splitOnChar sep l
         else
          match splitOnChar sep l with
          | [] => [[d]]
          | p :: ps => (d :: p) :: ps) := rfl
    rw [hred0, if_neg hd, ih hl]

/-- A pipe-separated image cell which mentions `http` has at least one
non-blank trimmed segment. -/
theorem split_urls_ne_nil {s : String}
    (hhttp : (jsIncludes (jsTrim s) "http://" || jsIncludes (jsTrim s) "https://") = true) :
    ((jsSplit s '|').map jsTrim).filter (fun u => u ≠ "") ≠ [] := by
  have hh : ('h' : Char) ∈ trimChars s.data := by
    rw [Bool.or_eq_true] at hhttp
    rcases hhttp with h1 | h1 <;>
    · unfold jsIncludes at h1
      rw [Bool.or_eq_true] at h1
      rcases h1 with h2 | h2
      · simp at h2
      · exact subOccurs_head_mem h2
  have hhs : ('h' : Char) ∈ s.data := trimChars_subset hh
  obtain ⟨seg, hseg, hhseg⟩ := mem_splitOnChar_of_mem '|' s.data 'h' hhs (by decide)
  have htr : jsTrim (String.mk seg) ≠ "" := by
    rw [string_ne_empty_iff]
    exact trimChars_ne_nil hhseg (by decide)
  intro hnil
  have : jsTrim (String.mk seg) ∈
      ((jsSplit s '|').map jsTrim).filter (fun u => u ≠ "") := by
    apply List.mem_filter.mpr
    refine ⟨?_, by simpa using htr⟩
    apply List.mem_map_of_mem
    unfold jsSplit
    exact List.mem_map_of_mem String.mk hseg
  rw [hnil] at this
  simp at this

theorem subOccurs_singleton {c : Char} : ∀ {l : List Char}, c ∈ l → subOccurs [c] l = true := by
  intro l
  induction l with
  | nil => intro h; simp at h
  | cons d l ih =>
    intro h
    unfold subOccurs
    rw [Bool.or_eq_true]
    rcases List.mem_cons.mp h with rfl | h'
    · left
      simp [List.isPrefixOf]
    · right
      exact ih h'

theorem not_includes_pipe {s : String} (h : jsIncludes s "|" = false) : '|' ∉ s.data := by
  intro hm
  unfold jsIncludes at h
  rw [Bool.or_eq_false_iff] at h
  rw [show ("|" : String).data = ['|'] from rfl] at h
  exact absurd (subOccurs_singleton hm) (by simp [h.2])

/-- An absent image field leaves the front/back pair unchanged. -/
theorem imageLoopStep_absent {r : RawRow} {f : String} (h : getCell r f = none)
    (fb : Option String × Option String) : imageLoopStep r fb f = fb := by
  unfold imageLoopStep
  rw [h]

/-- Reduction of `imageLoopStep` on a string cell. -/
theorem imageLoopStep_str {r : RawRow} {f s : String}
    (hc : getCell r f = some (.str s)) (fb : Option String × Option String) :
    imageLoopStep r fb f =
      (if s ≠ "" ∧ jsTrim s ≠ "" then
        (if (jsIncludes (jsTrim s) "http://" || jsIncludes (jsTrim s) "https://") = true then
          (if (jsIncludes (jsToLower f) "front" || decide (fb.1 = none)) = true then
            (some (jsTrim s), fb.2)
           else if jsIncludes (jsToLower f) "back" = true ∧ fb.2 = none then
            (fb.1, some (jsTrim s))
           else fb)
         else fb)
       else fb) := by
  unfold imageLoopStep
  rw [hc]

/-- A field without `http` in its trimmed value leaves the pair unchanged. -/
theorem imageLoopStep_nohttp {r : RawRow} {f s : String}
    (hc : getCell r f = some (.str s))
    (hh : (jsIncludes (jsTrim s) "http://" || jsIncludes (jsTrim s) "https://") = false)
    (fb : Option String × Option String) : imageLoopStep r fb f = fb := by
  rw [imageLoopStep_str hc]
  by_cases h1 : s ≠ "" ∧ jsTrim s ≠ ""
  · rw [if_pos h1, if_neg (by rw [hh]; simp)]
  · rw [if_neg h1]

/-- A non-`front`, non-`back` field never overwrites a populated front
URL. -/
theorem imageLoopStep_neither_keeps {r : RawRow} {f : String}
    (hf : jsIncludes (jsToLower f) "front" = false)
    (hb : jsIncludes (jsToLower f) "back" = false)
    {fb : Option String × Option String} {x : String} (hx : fb.1 = some x) :
    imageLoopStep r fb f = fb := by
  cases hc : getCell r f with
  | none => exact imageLoopStep_absent hc fb
  | some v =>
    cases v with
    | num n => unfold imageLoopStep; rw [hc]
    | str s =>
      rw [imageLoopStep_str hc]
      by_cases h1 : s ≠ "" ∧ jsTrim s ≠ ""
      · rw [if_pos h1]
        by_cases h2 : (jsIncludes (jsTrim s) "http://" || jsIncludes (jsTrim s) "https://") = true
        · rw [if_pos h2, if_neg (by rw [hf, hx]; simp), if_neg (by rw [hb]; simp)]
        · rw [if_neg h2]
      · rw [if_neg h1]

/-- A non-`front` field leaves a fully-populated pair unchanged. -/
theorem imageLoopStep_full_keeps {r : RawRow} {f : String}
    (hf : jsIncludes (jsToLower f) "front" = false)
    {fb : Option String × Option String} {x y : String}
    (hx : fb.1 = some x) (hy : fb.2 = some y) :
    imageLoopStep r fb f = fb := by
  cases hc : getCell r f with
  | none => exact imageLoopStep_absent hc fb
  | some v =>
    cases v with
    | num n => unfold imageLoopStep; rw [hc]
    | str s =>
      rw [imageLoopStep_str hc]
      by_cases h1 : s ≠ "" ∧ jsTrim s ≠ ""
      · rw [if_pos h1]
        by_cases h2 : (jsIncludes (jsTrim s) "http://" || jsIncludes (jsTrim s) "https://") = true
        · rw [if_pos h2, if_neg (by rw [hf, hx]; simp), if_neg (by rw [hy]; simp)]
        · rw [if_neg h2]
      · rw [if_neg h1]

/-- A qualifying `front`-named field always overwrites the front URL. -/
theorem imageLoopStep_front_sets {r : RawRow} {f u : String}
    (hc : getCell r f = some (.str u))
    (hf : jsIncludes (jsToLower f) "front" = true)
    (ht : jsTrim u ≠ "")
    (hh : (jsIncludes (jsTrim u) "http://" || jsIncludes (jsTrim u) "https://") = true)
    (fb : Option String × Option String) :
    imageLoopStep r fb f = (some (jsTrim u), fb.2) := by
  have hu : u ≠ "" := by
    intro hh0
    apply ht
    rw [hh0]
    rfl
  rw [imageLoopStep_str hc, if_pos ⟨hu, ht⟩, if_pos hh, if_pos (by rw [hf]; simp)]

/-- Reduction of the pipe-splitting block on a string cell. -/
theorem imageBlock_str {r : RawRow} {s : String}
    (hc : getCell r "IMAGE URL" = some (.str s)) :
    imageBlock r =
      (if truthyCell (.str s) = true then
        (match (if jsIncludes s "|" = true then
            ((jsSplit s '|').map jsTrim).filter (fun u => u ≠ "") else [jsTrim s]) with
          | u :: _ => if u ≠ "" then some u else none
          | [] => none,
         match (if jsIncludes s "|" = true then
            ((jsSplit s '|').map jsTrim).filter (fun u => u ≠ "") else [jsTrim s]) with
          | _ :: u :: _ => if u ≠ "" then some u else none
          | _ => none)
       else (none, none)) := by
  unfold imageBlock
  rw [hc]
  rfl

/-- The pipe-splitting block computes the claim's split-trim-filter list
projection. -/
theorem imageBlock_eq {r : RawRow} {s : String}
    (hc : getCell r "IMAGE URL" = some (.str s)) :
    imageBlock r = ((((jsSplit s '|').map jsTrim).filter (fun u => u ≠ ""))[0]?,
      (((jsSplit s '|').map jsTrim).filter (fun u => u ≠ ""))[1]?) := by
  rw [imageBlock_str hc]
  by_cases hs : s = ""
  · subst hs
    decide
  · rw [if_pos (show truthyCell (.str s) = true by simp [truthyCell, hs])]
    by_cases hp : jsIncludes s "|" = true
    · rw [if_pos hp]
      cases hu : ((jsSplit s '|').map jsTrim).filter (fun u => u ≠ "") with
      | nil => rfl
      | cons a rest =>
        have ha : a ≠ "" := by
          have hm : a ∈ ((jsSplit s '|').map jsTrim).filter (fun u => u ≠ "") := by
            rw [hu]; exact List.mem_cons_self a rest
          simpa using (List.mem_filter.mp hm).2
        cases rest with
        | nil => simp [ha]
        | cons b rest' =>
          have hbm : b ∈ ((jsSplit s '|').map jsTrim).filter (fun u => u ≠ "") := by
            rw [hu]; exact List.mem_cons_of_mem a (List.mem_cons_self b rest')
          have hb : b ≠ "" := by simpa using (List.mem_filter.mp hbm).2
          simp [ha, hb]
    · rw [if_neg hp]
      have hsp : jsSplit s '|' = [s] := by
        unfold jsSplit
        rw [splitOnChar_not_mem (not_includes_pipe (by simpa using hp))]
        cases s with | mk d => rfl
      rw [hsp]
      by_cases htr : jsTrim s = ""
      · rw [show (([s].map jsTrim).filter (fun u => u ≠ "")) = [] from by simp [htr]]
        simp [htr]
      · rw [show (([s].map jsTrim).filter (fun u => u ≠ "")) = [jsTrim s] from by simp [htr]]
        simp [htr]

/-- A non-`front` field preserves a populated front URL (it may still
fill the back URL). -/
theorem imageLoopStep_fst_keeps {r : RawRow} {f : String}
    (hf : jsIncludes (jsToLower f) "front" = false)
    {fb : Option String × Option String} {x : String} (hx : fb.1 = some x) :
    (imageLoopStep r fb f).1 = some x := by
  cases hc : getCell r f with
  | none => rw [imageLoopStep_absent hc]; exact hx
  | some v =>
    cases v with
    | num n =>
      rw [show imageLoopStep r fb f = fb from by unfold imageLoopStep; rw [hc]]
      exact hx
    | str s =>
      rw [imageLoopStep_str hc]
      by_cases h1 : s ≠ "" ∧ jsTrim s ≠ ""
      · rw [if_pos h1]
        by_cases h2 : (jsIncludes (jsTrim s) "http://" || jsIncludes (jsTrim s) "https://") = true
        · rw [if_pos h2, if_neg (by rw [hf, hx]; simp)]
          by_cases h3 : jsIncludes (jsToLower f) "back" = true ∧ fb.2 = none
          · rw [if_pos h3]; exact hx
          · rw [if_neg h3]; exact hx
        · rw [if_neg h2]; exact hx
      · rw [if_neg h1]; exact hx

/-- C8: the claim says additionally-named image columns override the
pipe-split assignment only when the target field is not already
populated.  The loop's condition
`fieldName.includes('front') || !frontImageUrl` makes a `front`-named
column overwrite frontImageUrl even when it is populated. -/
theorem claim_C8_counterexample :
    imagesOf [("IMAGE URL", CellValue.str "http://a.jpg|http://b.jpg"),
        ("Front Image", CellValue.str "http://c.jpg")] =
      (some "http://c.jpg", some "http://b.jpg") ∧
    some "http://c.jpg" ≠ some "http://a.jpg" := by
  decide

/-- C8 (amended): (a) with no additional image columns, the `IMAGE URL`
cell is split on `|`, segments trimmed, empties discarded, the first
surviving segment becoming frontImageUrl and the second backImageUrl;
(b) a qualifying `front`-named column (non-blank trim containing
`http://` or `https://`) always overwrites frontImageUrl, populated or
not; (c) a qualifying `back`-named column fills backImageUrl only when
it is not already populated — with both pipe URLs present it changes
nothing. -/
theorem claim_C8 :
    (∀ (r : RawRow) (s : String),
      getCell r "IMAGE URL" = some (.str s) →
      getCell r "Image URL" = none → getCell r "Front Image URL" = none →
      getCell r "Back Image URL" = none → getCell r "Front Image" = none →
      getCell r "Back Image" = none →
      imagesOf r = ((((jsSplit s '|').map jsTrim).filter (fun u => u ≠ ""))[0]?,
        (((jsSplit s '|').map jsTrim).filter (fun u => u ≠ ""))[1]?)) ∧
    (∀ (r : RawRow) (u : String),
      getCell r "Front Image" = some (.str u) → jsTrim u ≠ "" →
      (jsIncludes (jsTrim u) "http://" || jsIncludes (jsTrim u) "https://") = true →
      (imagesOf r).1 = some (jsTrim u)) ∧
    (∀ (r : RawRow) (s w a b : String) (rest : List String),
      getCell r "IMAGE URL" = some (.str s) →
      ((jsSplit s '|').map jsTrim).filter (fun u => u ≠ "") = a :: b :: rest →
      getCell r "Image URL" = none → getCell r "Front Image URL" = none →
      getCell r "Back Image URL" = none → getCell r "Front Image" = none →
      getCell r "Back Image" = some (.str w) → jsTrim w ≠ "" →
      (jsIncludes (jsTrim w) "http://" || jsIncludes (jsTrim w) "https://") = true →
      imagesOf r = (some a, some b)) := by
  refine ⟨?_, ?_, ?_⟩
  · intro r s h0 h1 h3 h4 h5 h6
    have hfold : imagesOf r = imageLoopStep r (imageLoopStep r (imageLoopStep r
        (imageLoopStep r (imageLoopStep r (imageLoopStep r (imageBlock r)
          "Image URL") "IMAGE URL") "Front Image URL") "Back Image URL")
        "Front Image") "Back Image" := rfl
    rw [hfold, imageLoopStep_absent h1, imageBlock_eq h0]
    by_cases hhttp :
        (jsIncludes (jsTrim s) "http://" || jsIncludes (jsTrim s) "https://") = true
    · cases hu : ((jsSplit s '|').map jsTrim).filter (fun u => u ≠ "") with
      | nil => exact absurd hu (split_urls_ne_nil hhttp)
      | cons a rest =>
        rw [imageLoopStep_neither_keeps
            (show jsIncludes (jsToLower "IMAGE URL") "front" = false by decide)
            (show jsIncludes (jsToLower "IMAGE URL") "back" = false by decide)
            (show ((a :: rest)[0]?, (a :: rest)[1]?).1 = some a by simp),
          imageLoopStep_absent h3, imageLoopStep_absent h4,
          imageLoopStep_absent h5, imageLoopStep_absent h6]
    · rw [imageLoopStep_nohttp h0 (by simpa using hhttp),
        imageLoopStep_absent h3, imageLoopStep_absent h4,
        imageLoopStep_absent h5, imageLoopStep_absent h6]
  · intro r u hc htr hh
    have hfold : imagesOf r = imageLoopStep r (imageLoopStep r (imageLoopStep r
        (imageLoopStep r (imageLoopStep r (imageLoopStep r (imageBlock r)
          "Image URL") "IMAGE URL") "Front Image URL") "Back Image URL")
        "Front Image") "Back Image" := rfl
    rw [hfold, imageLoopStep_front_sets hc
      (show jsIncludes (jsToLower "Front Image") "front" = true by decide) htr hh]
    exact imageLoopStep_fst_keeps
      (show jsIncludes (jsToLower "Back Image") "front" = false by decide) rfl
  · intro r s w a b rest h0 hurls h1 h3 h4 h5 h6 htr hh
    have hfold : imagesOf r = imageLoopStep r (imageLoopStep r (imageLoopStep r
        (imageLoopStep r (imageLoopStep r (imageLoopStep r (imageBlock r)
          "Image URL") "IMAGE URL") "Front Image URL") "Back Image URL")
        "Front Image") "Back Image" := rfl
    rw [hfold, imageLoopStep_absent h1, imageBlock_eq h0, hurls]
    rw [imageLoopStep_full_keeps
        (show jsIncludes (jsToLower "IMAGE URL") "front" = false by decide)
        (show ((a :: b :: rest)[0]?, (a :: b :: rest)[1]?).1 = some a by simp)
        (show ((a :: b :: rest)[0]?, (a :: b :: rest)[1]?).2 = some b by simp),
      imageLoopStep_absent h3, imageLoopStep_absent h4, imageLoopStep_absent h5]
    rw [imageLoopStep_full_keeps
        (show jsIncludes (jsToLower "Back Image") "front" = false by decide)
        (show ((a :: b :: rest)[0]?, (a :: b :: rest)[1]?).1 = some a by simp)
        (show ((a :: b :: rest)[0]?, (a :: b :: rest)[1]?).2 = some b by simp)]
    simp

/-- C8 witness: the amended theorem's parts applied to concrete rows. -/
theorem claim_C8_witness :
    imagesOf [("IMAGE URL", CellValue.str "http://a.jpg | http://b.jpg")] =
      ((((jsSplit "http://a.jpg | http://b.jpg" '|').map jsTrim).filter
        (fun u => u ≠ ""))[0]?,
       (((jsSplit "http://a.jpg | http://b.jpg" '|').map jsTrim).filter
        (fun u => u ≠ ""))[1]?) ∧
    (imagesOf [("IMAGE URL", CellValue.str "http://a.jpg|http://b.jpg"),
      ("Front Image", CellValue.str "http://c.jpg")]).1 = some (jsTrim "http://c.jpg") ∧
    imagesOf [("IMAGE URL", CellValue.str "http://a.jpg|http://b.jpg"),
      ("Back Image", CellValue.str "http://x.jpg")] = (some "http://a.jpg", some "http://b.jpg") :=
  ⟨claim_C8.1 _ "http://a.jpg | http://b.jpg" (by decide) (by decide) (by decide)
      (by decide) (by decide) (by decide),
   claim_C8.2.1 _ "http://c.jpg" (by decide) (by decide) (by decide),
   claim_C8.2.2 _ "http://a.jpg|http://b.jpg" "http://x.jpg" "http://a.jpg" "http://b.jpg" []
      (by decide) (by decide) (by decide) (by decide) (by decide) (by decide) (by decide)
      (by decide) (by decide)⟩

/-! ## Lemmas for the text endpoint's blank-input behaviour -/

theorem splitOnChar_mem_subset {sep : Char} :
    ∀ {l seg : List Char}, seg ∈ splitOnChar sep l → ∀ {c : Char}, c ∈ seg → c ∈ l := by
  intro l
  induction l with
  | nil =>
    intro seg hseg c hc
    simp [splitOnChar] at hseg
    subst hseg
    simp at hc
  | cons d l ih =>
    intro seg hseg c hc
    have hred0 : splitOnChar sep (d :: l) =
        (if d == sep then [] :: splitOnChar sep l
         else
          match splitOnChar sep l with
          | [] => [[d]]
          | p :: ps => (d :: p) :: ps) := rfl
    rw [hred0] at hseg
    by_cases hd : d == sep
    · rw [if_pos hd] at hseg
      rcases List.mem_cons.mp hseg with rfl | hseg'
      · simp at hc
      · exact List.mem_cons_of_mem d (ih hseg' hc)
    · rw [if_neg hd] at hseg
      cases hsp : splitOnChar sep l with
      | nil =>
        rw [hsp] at hseg
        simp at hseg
        subst hseg
        simp at hc
        subst hc
        exact List.mem_cons_self _ _
      | cons p ps =>
        rw [hsp] at hseg
        rcases List.mem_cons.mp hseg with rfl | hseg'
        · rcases List.mem_cons.mp hc with rfl | hc'
          · exact List.mem_cons_self _ _
          · exact List.mem_cons_of_mem d (ih (by rw [hsp]; exact List.mem_cons_self p ps) hc')
        · exact List.mem_cons_of_mem d (ih (by rw [hsp]; exact List.mem_cons_of_mem p hseg') hc)

/-- C10: the claim says only a missing or non-string `text` field is
answered with a 400.  The handler's `!text` truthiness check also
rejects the present, string-typed empty string with a 400. -/
theorem claim_C10_counterexample :
    textImport 2026 (fun _ => none) (some (.str "")) = .badRequest "No text data provided" ∧
    isStrCell (some (CellValue.str "")) = true := by
  decide

/-- C10 (amended): a non-empty whitespace-only `text` string is answered
with success — zero imported out of zero, empty results, nothing
persisted — and the endpoint answers 400 exactly when the `text` field
is missing, non-string, or the empty string. -/
theorem claim_C10 :
    (∀ (nowYear : Int) (fails : Nat → Option String) (s : String),
      s ≠ "" → s.data.all jsWsChar = true →
      textImport nowYear fails (some (.str s)) =
        .okResponse "Successfully imported 0 of 0 cards" 0 []) ∧
    (∀ (nowYear : Int) (fails : Nat → Option String) (body : Option CellValue),
      isBadRequestT (textImport nowYear fails body) = true ↔
        (body = none ∨ (∃ n, body = some (.num n)) ∨ body = some (.str ""))) := by
  constructor
  · intro ny fails s hne hws
    have hlines : (jsSplit s '\n').filter (fun l => jsTrim l ≠ "") = [] := by
      rw [List.filter_eq_nil_iff]
      intro p hp
      obtain ⟨seg, hseg, rfl⟩ := List.mem_map.mp hp
      have hall : ∀ x ∈ seg, jsWsChar x = true := fun x hx =>
        (List.all_eq_true.mp hws) x (splitOnChar_mem_subset hseg hx)
      have htr : jsTrim (String.mk seg) = "" := by
        show String.mk (trimChars seg) = ""
        rw [trimChars_eq_nil_of_all_ws hall]
      simp [htr]
    simp only [textImport]
    rw [if_neg hne, hlines, List.map_nil, mapWithIndex_nil, List.filter_nil]
    rfl
  · intro ny fails body
    cases body with
    | none => simp [textImport, isBadRequestT]
    | some v =>
      cases v with
      | num n => simp [textImport, isBadRequestT]
      | str s =>
        by_cases hs : s = ""
        · subst hs
          simp [textImport, isBadRequestT]
        · simp [textImport, isBadRequestT, hs]

/-- C10 witness: the amended theorem's first part at a concrete
whitespace-only body. -/
theorem claim_C10_witness :
    textImport 2026 (fun _ => none) (some (.str " \n ")) =
      .okResponse "Successfully imported 0 of 0 cards" 0 [] :=
  claim_C10.1 2026 (fun _ => none) " \n " (by decide) (by decide)

end SportCard
